import Mathlib

/-!
Verification of the bipartite flow aggregation core of the Med-Vis
repository (AlluvialDiagram.tsx / ChordDiagram.tsx).

The definitions below are a shallow embedding of the TypeScript source:
survey records become a Lean structure, the category normalisers become
total functions, the `linksMap` construction of the Alluvial render
effect becomes a fold over an association list, and the timer-driven
highlight sequencer becomes an explicit state machine whose callbacks
mirror the `setTimeout` bodies of the source.
-/

namespace MedVis

/-- A JavaScript number as seen by the years normaliser: either `NaN`
(also covering the `typeof years !== 'number'` guard) or a numeric
value, modelled as a rational. -/
inductive JSNumber where
  | nan : JSNumber
  | num : ℚ → JSNumber
deriving DecidableEq

/-- The survey dimensions of `availableFields` in AlluvialDiagram.tsx
(lines 64-71): `years_at_medtronic`, `learning_style`, `shaped_by`,
`peak_performance`, `motivation`. -/
inductive Field where
  | years_at_medtronic
  | learning_style
  | shaped_by
  | peak_performance
  | motivation
deriving DecidableEq, Fintype, Repr

/-- One row of `survey_responses` as consumed by the diagrams: a nullable
integer-valued years column (modelled as `Option ℚ`), four nullable text
columns, and the `test_data` flag. -/
structure SurveyResponse where
  years_at_medtronic : Option ℚ
  learning_style : Option String
  shaped_by : Option String
  peak_performance : Option String
  motivation : Option String
  test_data : Bool
deriving DecidableEq, Repr

/-- `YEARS_CATEGORIES` from AlluvialDiagram.tsx line 73. -/
def YEARS_CATEGORIES : List String := ["0-5", "6-10", "11-15", "16-20", "20+"]

/-- `getValidYearsCategory` from AlluvialDiagram.tsx lines 76-83: the
`typeof`/`isNaN` guard and negative values fall into `"0-5"`, then the
`<=` chain buckets the value. -/
def getValidYearsCategory : JSNumber → String
  | .nan => "0-5"
  | .num years =>
    if years < 0 then "0-5"
    else if years ≤ 5 then "0-5"
    else if years ≤ 10 then "6-10"
    else if years ≤ 15 then "11-15"
    else if years ≤ 20 then "16-20"
    else "20+"

/-- Modelled from the spec: `getYearsCategory` is imported from
`shared/colorUtils`, which is not among the provided sources. The
spec's years-bucketing rule (`0-5, 6-10, 11-15, 16-20, 20+`, lower
bound inclusive, values below 0 or non-numeric coerced to `0-5`) is the
rule `getValidYearsCategory` implements, so the missing function is
modelled with the same equations. -/
def getYearsCategory : JSNumber → String
  | .nan => "0-5"
  | .num years =>
    if years < 0 then "0-5"
    else if years ≤ 5 then "0-5"
    else if years ≤ 10 then "6-10"
    else if years ≤ 15 then "11-15"
    else if years ≤ 20 then "16-20"
    else "20+"

theorem getYearsCategory_eq_getValidYearsCategory :
    getYearsCategory = getValidYearsCategory := by
  funext x; cases x <;> rfl

/-- `d.years_at_medtronic || 0`: a null years column is coerced to `0`
before bucketing (`0` itself is also falsy, but `0 || 0 = 0`). -/
def yearsOrZero (r : SurveyResponse) : ℚ := r.years_at_medtronic.getD 0

/-- `(d as any)[currentSource]` for the four text columns. Reading the
years column through this string-typed path never produces a valid
string (the value is a number), so it is modelled as `none` there; every
call site branches on `years_at_medtronic` first, exactly as the source
does. -/
def catField (r : SurveyResponse) : Field → Option String
  | .years_at_medtronic => none
  | .learning_style => r.learning_style
  | .shaped_by => r.shaped_by
  | .peak_performance => r.peak_performance
  | .motivation => r.motivation

/-- The `sourceAccessor`/`targetAccessor` pair of the render effect
(AlluvialDiagram.tsx lines 707-714): the years column goes through
`getYearsCategory(d.years_at_medtronic || 0)`, every other field is read
verbatim. -/
def fieldAccessor (f : Field) (d : SurveyResponse) : Option String :=
  if f = .years_at_medtronic then some (getYearsCategory (.num (yearsOrZero d)))
  else catField d f

/-- `filteredData` (AlluvialDiagram.tsx lines 144-147): drop
`test_data` rows unless the global `useTestData` setting keeps them. -/
def filteredData (data : List SurveyResponse) (useTestData : Bool) : List SurveyResponse :=
  if useTestData then data else data.filter (fun r => !r.test_data)

/-- `Array.from(new Set(xs))`: deduplication keeping the first
occurrence of each element, in encounter order. -/
def firstDedup {α : Type} [DecidableEq α] : List α → List α
  | [] => []
  | x :: xs => x :: (firstDedup xs).filter (fun y => y ≠ x)

theorem mem_firstDedup {α : Type} [DecidableEq α] (a : α) :
    ∀ l : List α, a ∈ firstDedup l ↔ a ∈ l := by
  intro l
  induction l with
  | nil => simp [firstDedup]
  | cons x xs ih =>
    simp only [firstDedup, List.mem_cons, List.mem_filter, ih, decide_eq_true_eq]
    constructor
    · rintro (rfl | ⟨h, _⟩)
      · exact Or.inl rfl
      · exact Or.inr h
    · rintro (rfl | h)
      · exact Or.inl rfl
      · by_cases hax : a = x
        · exact Or.inl hax
        · exact Or.inr ⟨h, hax⟩

theorem nodup_firstDedup {α : Type} [DecidableEq α] :
    ∀ l : List α, (firstDedup l).Nodup := by
  intro l
  induction l with
  | nil => simp [firstDedup]
  | cons x xs ih =>
    simp only [firstDedup, List.nodup_cons]
    refine ⟨?_, ih.filter _⟩
    intro hmem
    simp only [List.mem_filter, decide_eq_true_eq] at hmem
    exact hmem.2 rfl

/-- The JS `typeof value === 'string' && value.length > 0` filter applied
to a deduplicated list of nullable strings. -/
def keepValidStrings (l : List (Option String)) : List String :=
  l.filterMap (fun v => match v with
    | some s => if s.length > 0 then some s else none
    | none => none)

/-- Code-unit comparison of character lists, the order JS
`Array.prototype.sort` uses with its default comparator (the labels here
are ASCII, where code units and code points agree). -/
def charListLe : List Char → List Char → Bool
  | [], _ => true
  | _ :: _, [] => false
  | c :: cs, d :: ds =>
    if c.toNat < d.toNat then true
    else if d.toNat < c.toNat then false
    else charListLe cs ds

/-- The default JS string comparison, as a relation on strings. -/
def jsLe (a b : String) : Prop := charListLe a.data b.data = true

instance : DecidableRel jsLe := fun a b => by unfold jsLe; infer_instance

/-- The `sources` memo (AlluvialDiagram.tsx lines 150-163): for the
years field, the fixed category list restricted to the categories some
record falls into; otherwise the distinct non-empty string values, in
encounter order. -/
def sources (data : List SurveyResponse) (currentSource : Field) : List String :=
  if data.isEmpty then []
  else if currentSource = .years_at_medtronic then
    YEARS_CATEGORIES.filter (fun cat =>
      data.any (fun d => getValidYearsCategory (.num (yearsOrZero d)) == cat))
  else
    keepValidStrings (firstDedup (data.map (fun d => catField d currentSource)))

/-- The `targets` memo (AlluvialDiagram.tsx lines 165-183): like
`sources` but with a trailing `.sort()` in the categorical branch. -/
def targets (data : List SurveyResponse) (currentTarget : Field) : List String :=
  if data.isEmpty then []
  else if currentTarget = .years_at_medtronic then
    YEARS_CATEGORIES.filter (fun cat =>
      data.any (fun d => getValidYearsCategory (.num (yearsOrZero d)) == cat))
  else
    (keepValidStrings (firstDedup (data.map (fun d => catField d currentTarget)))).insertionSort
      jsLe

/-- `YEARS_CATEGORIES.indexOf`. -/
def yearsIdx (s : String) : ℕ := YEARS_CATEGORIES.indexOf s

/-- `xs.sort((a, b) => YEARS_CATEGORIES.indexOf(a) - YEARS_CATEGORIES.indexOf(b))`. -/
def sortYears (l : List String) : List String :=
  l.insertionSort (fun a b => yearsIdx a ≤ yearsIdx b)

/-- `xs.sort()` with the default lexicographic comparator. -/
def sortAlpha (l : List String) : List String :=
  l.insertionSort jsLe

/-- `sortedSources` of the render effect (AlluvialDiagram.tsx lines
691-697). -/
def sortedSources (data : List SurveyResponse) (f : Field) : List String :=
  if f = .years_at_medtronic then sortYears (sources data f) else sortAlpha (sources data f)

/-- `sortedTargets` of the render effect (AlluvialDiagram.tsx lines
698-704). -/
def sortedTargets (data : List SurveyResponse) (f : Field) : List String :=
  if f = .years_at_medtronic then sortYears (targets data f) else sortAlpha (targets data f)

/-- `validData` (AlluvialDiagram.tsx lines 716-720): when a selected
field is the years column, rows with a null years value are removed. -/
def validData (data : List SurveyResponse) (s t : Field) : List SurveyResponse :=
  data.filter (fun d =>
    (s != Field.years_at_medtronic || d.years_at_medtronic.isSome) &&
    (t != Field.years_at_medtronic || d.years_at_medtronic.isSome))

/-- C3. Years bucketing correctness: `getValidYearsCategory` applies the
fixed lower-bound-inclusive breakpoints (`0-5` up to 5, `6-10` up to 10,
`11-15` up to 15, `16-20` up to 20, `20+` above), and every negative or
non-numeric (NaN) input is coerced to the first bucket `"0-5"`; in
particular 0 and 5 map to `"0-5"`, 6 to `"6-10"`, 20 to `"16-20"`, 21 to
`"20+"`, and -3 and NaN to `"0-5"`. Being a total Lean function, it
cannot throw. -/
theorem years_bucketing_correct :
    (∀ x : ℚ,
      (x < 0 → getValidYearsCategory (.num x) = "0-5") ∧
      (0 ≤ x → x ≤ 5 → getValidYearsCategory (.num x) = "0-5") ∧
      (5 < x → x ≤ 10 → getValidYearsCategory (.num x) = "6-10") ∧
      (10 < x → x ≤ 15 → getValidYearsCategory (.num x) = "11-15") ∧
      (15 < x → x ≤ 20 → getValidYearsCategory (.num x) = "16-20") ∧
      (20 < x → getValidYearsCategory (.num x) = "20+")) ∧
    getValidYearsCategory .nan = "0-5" ∧
    getValidYearsCategory (.num 0) = "0-5" ∧
    getValidYearsCategory (.num 5) = "0-5" ∧
    getValidYearsCategory (.num 6) = "6-10" ∧
    getValidYearsCategory (.num 20) = "16-20" ∧
    getValidYearsCategory (.num 21) = "20+" ∧
    getValidYearsCategory (.num (-3)) = "0-5" := by
  refine ⟨?_, rfl, by norm_num [getValidYearsCategory], by norm_num [getValidYearsCategory],
    by norm_num [getValidYearsCategory], by norm_num [getValidYearsCategory],
    by norm_num [getValidYearsCategory], by norm_num [getValidYearsCategory]⟩
  intro x
  refine ⟨fun h => ?_, fun h0 h => ?_, fun hl h => ?_, fun hl h => ?_, fun hl h => ?_,
    fun hl => ?_⟩ <;>
    simp only [getValidYearsCategory] <;>
    repeat first
      | rw [if_pos (by linarith)]
      | rw [if_neg (by linarith)]

/-- Witness for C3: the general breakpoint clauses applied at concrete
inputs 7 and -3. -/
theorem years_bucketing_correct_witness :
    getValidYearsCategory (.num 7) = "6-10" ∧ getValidYearsCategory (.num (-3)) = "0-5" :=
  ⟨(years_bucketing_correct.1 7).2.2.1 (by norm_num) (by norm_num),
   (years_bucketing_correct.1 (-3)).1 (by norm_num)⟩

/-! ### The `linksMap` construction of the render effect -/

/-- The value part of one `linksMap` entry: `{ value, isDummy }`. -/
structure LinkVal where
  value : ℚ
  isDummy : Bool
deriving DecidableEq, Repr

/-- The `linksMap` of AlluvialDiagram.tsx lines 729-760, as an
association list from `(sourceLabel, targetLabel)` to `LinkVal` (the
`${field}:${label}` id prefixes are constant and omitted); JS `Map`
preserves insertion order, which the list models. -/
abbrev LinksMap := List ((String × String) × LinkVal)

def keysOf (m : LinksMap) : List (String × String) :=
  m.map (fun e => e.1)

/-- The cross-product key list, in the nested-loop order of step 1. -/
def crossPairs (S T : List String) : List (String × String) :=
  S.flatMap (fun s => T.map (fun t => (s, t)))

/-- Step 1 (lines 731-738): one zero-valued dummy entry per
(source, target) pair. -/
def initLinks (S T : List String) : LinksMap :=
  S.flatMap (fun s => T.map (fun t => ((s, t), ⟨0, true⟩)))

/-- `linksMap.get(key)!.value += 1; link.isDummy = false`: the in-place
update of an existing entry. -/
def bumpKey (k : String × String) (m : LinksMap) : LinksMap :=
  m.map (fun e => if e.1 = k then (e.1, ⟨e.2.value + 1, false⟩) else e)

/-- Step 2 (lines 740-754): one record's contribution. Records whose
accessor value is not among the node labels (including `null` values,
which `includes` never matches) are skipped. -/
def addRecord (S T : List String) (sAcc tAcc : SurveyResponse → Option String)
    (m : LinksMap) (d : SurveyResponse) : LinksMap :=
  match sAcc d, tAcc d with
  | some s, some t =>
    if s ∈ S ∧ t ∈ T then
      if (s, t) ∈ keysOf m then bumpKey (s, t) m
      else m ++ [((s, t), ⟨1, false⟩)]
    else m
  | _, _ => m

def overlayRecords (S T : List String) (sAcc tAcc : SurveyResponse → Option String)
    (m : LinksMap) (data : List SurveyResponse) : LinksMap :=
  data.foldl (addRecord S T sAcc tAcc) m

/-- Step 3 (lines 756-758): entries still marked dummy get the small
placeholder weight `0.0001`. -/
def finalizeDummies (m : LinksMap) : LinksMap :=
  m.map (fun e => if e.2.isDummy then (e.1, ⟨1 / 10000, true⟩) else e)

/-- The full link construction of the render effect for a field pair:
filter test data, compute the sorted node labels, filter null-years
rows, then steps 1-3. -/
def alluvialLinks (data : List SurveyResponse) (useTD : Bool) (s t : Field) : LinksMap :=
  finalizeDummies
    (overlayRecords
      (sortedSources (filteredData data useTD) s)
      (sortedTargets (filteredData data useTD) t)
      (fieldAccessor s) (fieldAccessor t)
      (initLinks (sortedSources (filteredData data useTD) s)
        (sortedTargets (filteredData data useTD) t))
      (validData (filteredData data useTD) s t))

/-- `linksMap.get(key)`. -/
def linkFor (m : LinksMap) (k : String × String) : Option LinkVal :=
  (m.find? (fun e => e.1 == k)).map (fun e => e.2)

/-- Whether record `d` falls on the pair `k`: both accessors hit the
pair's labels. -/
def matchesPair (sAcc tAcc : SurveyResponse → Option String) (k : String × String)
    (d : SurveyResponse) : Bool :=
  sAcc d == some k.1 && tAcc d == some k.2

/-- Number of records of `vd` whose accessor pair is exactly `k`. -/
def pairCount (vd : List SurveyResponse) (sAcc tAcc : SurveyResponse → Option String)
    (k : String × String) : ℕ :=
  (vd.filter (matchesPair sAcc tAcc k)).length

@[simp] theorem keysOf_nil : keysOf [] = [] := rfl

@[simp] theorem keysOf_cons (e : (String × String) × LinkVal) (m : LinksMap) :
    keysOf (e :: m) = e.1 :: keysOf m := rfl

@[simp] theorem keysOf_bumpKey (k : String × String) (m : LinksMap) :
    keysOf (bumpKey k m) = keysOf m := by
  simp only [keysOf, bumpKey, List.map_map]
  congr 1
  funext e
  by_cases h : e.1 = k <;> simp [h]

theorem bumpKey_eq_of_not_mem {k : String × String} {m : LinksMap}
    (h : k ∉ keysOf m) : bumpKey k m = m := by
  induction m with
  | nil => rfl
  | cons e rest ih =>
    simp only [keysOf_cons, List.mem_cons, not_or] at h
    simp only [bumpKey, List.map_cons] at ih ⊢
    rw [if_neg (fun he => h.1 he.symm), ih h.2]

theorem mem_crossPairs (S T : List String) (k : String × String) :
    k ∈ crossPairs S T ↔ k.1 ∈ S ∧ k.2 ∈ T := by
  simp only [crossPairs, List.mem_flatMap, List.mem_map]
  constructor
  · rintro ⟨s, hs, t, ht, rfl⟩
    exact ⟨hs, ht⟩
  · rintro ⟨h1, h2⟩
    exact ⟨k.1, h1, k.2, h2, rfl⟩

@[simp] theorem keysOf_initLinks (S T : List String) :
    keysOf (initLinks S T) = crossPairs S T := by
  simp only [keysOf, initLinks, crossPairs, List.map_flatMap]
  congr 1
  funext s
  simp [Function.comp_def]

@[simp] theorem keysOf_finalizeDummies (m : LinksMap) :
    keysOf (finalizeDummies m) = keysOf m := by
  simp only [keysOf, finalizeDummies, List.map_map]
  congr 1
  funext e
  by_cases h : e.2.isDummy <;> simp [h]

theorem linkFor_cons (e : (String × String) × LinkVal) (m : LinksMap) (k : String × String) :
    linkFor (e :: m) k = if e.1 = k then some e.2 else linkFor m k := by
  by_cases h : e.1 = k
  · simp [linkFor, List.find?_cons_of_pos, h]
  · rw [if_neg h]
    unfold linkFor
    rw [List.find?_cons_of_neg]
    simp [h]

theorem linkFor_append (m₁ m₂ : LinksMap) (k : String × String) :
    linkFor (m₁ ++ m₂) k = if k ∈ keysOf m₁ then linkFor m₁ k else linkFor m₂ k := by
  unfold linkFor
  rw [List.find?_append]
  cases hf : m₁.find? (fun e => e.1 == k) with
  | none =>
    rw [if_neg ?_]
    · simp
    · intro hk
      simp only [keysOf, List.mem_map] at hk
      obtain ⟨e, he, hek⟩ := hk
      have hne := List.find?_eq_none.mp hf e he
      simp [hek] at hne
  | some e =>
    rw [if_pos ?_]
    · simp
    · have hmem := List.mem_of_find?_eq_some hf
      have hp := List.find?_some hf
      simp only [beq_iff_eq] at hp
      simp only [keysOf, List.mem_map]
      exact ⟨e, hmem, hp⟩

theorem linkFor_rowBlock (s : String) (v : LinkVal) (T : List String) (k : String × String) :
    linkFor (T.map (fun t => ((s, t), v))) k
      = if k.1 = s ∧ k.2 ∈ T then some v else none := by
  induction T with
  | nil => simp [linkFor]
  | cons t T ih =>
    rw [List.map_cons, linkFor_cons]
    by_cases h : (s, t) = k
    · rw [if_pos h, if_pos ⟨by rw [← h], by rw [← h]; exact List.mem_cons_self _ _⟩]
    · rw [if_neg h, ih]
      by_cases hc : k.1 = s ∧ k.2 ∈ T
      · rw [if_pos hc, if_pos ⟨hc.1, List.mem_cons_of_mem _ hc.2⟩]
      · rw [if_neg hc, if_neg ?_]
        rintro ⟨ha, hb⟩
        rcases List.mem_cons.mp hb with hb | hb
        · exact h (by cases k; simp_all)
        · exact hc ⟨ha, hb⟩

theorem linkFor_initLinks (S T : List String) (k : String × String)
    (h1 : k.1 ∈ S) (h2 : k.2 ∈ T) :
    linkFor (initLinks S T) k = some ⟨0, true⟩ := by
  induction S with
  | nil => cases h1
  | cons s S ih =>
    rw [initLinks, List.flatMap_cons, linkFor_append]
    by_cases hk1 : k.1 = s
    · rw [if_pos ?_, linkFor_rowBlock, if_pos ⟨hk1, h2⟩]
      simp only [keysOf, List.map_map, List.mem_map, Function.comp]
      exact ⟨k.2, h2, by cases k; simp_all⟩
    · rw [if_neg ?_]
      · have hs : k.1 ∈ S := by
          rcases List.mem_cons.mp h1 with h | h
          · exact absurd h hk1
          · exact h
        exact ih hs
      · simp only [keysOf, List.map_map, List.mem_map, Function.comp]
        rintro ⟨t, _, hk⟩
        exact hk1 (by rw [← hk])

theorem linkFor_bumpKey (k j : String × String) (m : LinksMap) :
    linkFor (bumpKey k m) j =
      if j = k then (linkFor m j).map (fun lv => ⟨lv.value + 1, false⟩)
      else linkFor m j := by
  induction m with
  | nil => simp [bumpKey, linkFor]
  | cons e rest ih =>
    simp only [bumpKey, List.map_cons] at ih ⊢
    by_cases hek : e.1 = k
    · rw [if_pos hek]
      rw [linkFor_cons, linkFor_cons]
      by_cases hj : e.1 = j
      · rw [if_pos hj, if_pos hj, if_pos (by rw [← hj, hek])]
        simp
      · rw [if_neg hj, if_neg hj]
        exact ih
    · rw [if_neg hek]
      rw [linkFor_cons, linkFor_cons]
      by_cases hj : e.1 = j
      · rw [if_pos hj, if_pos hj, if_neg (by rw [← hj]; exact fun h => hek h)]
      · rw [if_neg hj, if_neg hj]
        exact ih

theorem linkFor_finalizeDummies (m : LinksMap) (j : String × String) :
    linkFor (finalizeDummies m) j =
      (linkFor m j).map (fun lv => if lv.isDummy then ⟨1 / 10000, true⟩ else lv) := by
  induction m with
  | nil => simp [finalizeDummies, linkFor]
  | cons e rest ih =>
    simp only [finalizeDummies, List.map_cons] at ih ⊢
    by_cases hd : e.2.isDummy
    · rw [if_pos hd, linkFor_cons, linkFor_cons]
      by_cases hj : e.1 = j
      · rw [if_pos hj, if_pos hj]
        simp [hd]
      · rw [if_neg hj, if_neg hj]
        exact ih
    · rw [if_neg hd, linkFor_cons, linkFor_cons]
      by_cases hj : e.1 = j
      · rw [if_pos hj, if_pos hj]
        simp [hd]
      · rw [if_neg hj, if_neg hj]
        exact ih

theorem keysOf_addRecord (S T : List String) (sA tA : SurveyResponse → Option String)
    (m : LinksMap) (d : SurveyResponse)
    (hfull : ∀ a b, a ∈ S → b ∈ T → (a, b) ∈ keysOf m) :
    keysOf (addRecord S T sA tA m d) = keysOf m := by
  unfold addRecord
  cases sA d with
  | none => rfl
  | some s =>
    cases tA d with
    | none => rfl
    | some t =>
      dsimp only
      by_cases hst : s ∈ S ∧ t ∈ T
      · rw [if_pos hst, if_pos (hfull s t hst.1 hst.2), keysOf_bumpKey]
      · rw [if_neg hst]

theorem linkFor_addRecord (S T : List String) (sA tA : SurveyResponse → Option String)
    (m : LinksMap) (d : SurveyResponse) (j : String × String) (v : LinkVal)
    (hfull : ∀ a b, a ∈ S → b ∈ T → (a, b) ∈ keysOf m)
    (hj1 : j.1 ∈ S) (hj2 : j.2 ∈ T) (hj : linkFor m j = some v) :
    linkFor (addRecord S T sA tA m d) j =
      some (if matchesPair sA tA j d then ⟨v.value + 1, false⟩ else v) := by
  unfold addRecord
  cases hsd : sA d with
  | none => simp [matchesPair, hsd, hj]
  | some s =>
    cases htd : tA d with
    | none => simp [matchesPair, hsd, htd, hj]
    | some t =>
      dsimp only
      by_cases hst : s ∈ S ∧ t ∈ T
      · rw [if_pos hst, if_pos (hfull s t hst.1 hst.2), linkFor_bumpKey]
        by_cases hjk : j = (s, t)
        · rw [if_pos hjk, hj]
          have hm : matchesPair sA tA j d = true := by
            simp [matchesPair, hsd, htd, hjk]
          rw [hm, if_pos rfl]
          rfl
        · rw [if_neg hjk, hj]
          have hm : ¬ (matchesPair sA tA j d = true) := by
            simp only [matchesPair, hsd, htd, Bool.and_eq_true, beq_iff_eq,
              Option.some.injEq]
            rintro ⟨hA, hB⟩
            exact hjk (by cases j; simp_all)
          rw [Bool.not_eq_true] at hm
          rw [hm]
          simp
      · rw [if_neg hst]
        have hm : ¬ (matchesPair sA tA j d = true) := by
          simp only [matchesPair, hsd, htd, Bool.and_eq_true, beq_iff_eq,
            Option.some.injEq]
          rintro ⟨hA, hB⟩
          refine hst ⟨?_, ?_⟩
          · rw [hA]; exact hj1
          · rw [hB]; exact hj2
        rw [Bool.not_eq_true] at hm
        rw [hm]
        simp [hj]

theorem keysOf_overlayRecords (S T : List String) (sA tA : SurveyResponse → Option String)
    (vd : List SurveyResponse) : ∀ (m : LinksMap),
    (∀ a b, a ∈ S → b ∈ T → (a, b) ∈ keysOf m) →
    keysOf (overlayRecords S T sA tA m vd) = keysOf m := by
  induction vd with
  | nil => intro m _; rfl
  | cons d vd ih =>
    intro m hfull
    have hk := keysOf_addRecord S T sA tA m d hfull
    simp only [overlayRecords, List.foldl_cons] at ih ⊢
    rw [ih (addRecord S T sA tA m d) (fun a b ha hb => hk ▸ hfull a b ha hb), hk]

theorem linkFor_overlayRecords (S T : List String) (sA tA : SurveyResponse → Option String)
    (vd : List SurveyResponse) : ∀ (m : LinksMap) (j : String × String) (v : LinkVal),
    (∀ a b, a ∈ S → b ∈ T → (a, b) ∈ keysOf m) →
    j.1 ∈ S → j.2 ∈ T → linkFor m j = some v →
    linkFor (overlayRecords S T sA tA m vd) j =
      some ⟨v.value + (pairCount vd sA tA j : ℚ),
            v.isDummy && decide (pairCount vd sA tA j = 0)⟩ := by
  induction vd with
  | nil =>
    intro m j v _ _ _ hj
    simp [overlayRecords, pairCount, hj]
  | cons d vd ih =>
    intro m j v hfull h1 h2 hj
    have hk := keysOf_addRecord S T sA tA m d hfull
    have hfull' : ∀ a b, a ∈ S → b ∈ T → (a, b) ∈ keysOf (addRecord S T sA tA m d) :=
      fun a b ha hb => hk ▸ hfull a b ha hb
    have hstep := linkFor_addRecord S T sA tA m d j v hfull h1 h2 hj
    simp only [overlayRecords, List.foldl_cons] at ih ⊢
    by_cases hmA : matchesPair sA tA j d
    · rw [hmA, if_pos rfl] at hstep
      have hrec := ih (addRecord S T sA tA m d) j ⟨v.value + 1, false⟩ hfull' h1 h2 hstep
      rw [hrec]
      have hcnt : pairCount (d :: vd) sA tA j = pairCount vd sA tA j + 1 := by
        simp [pairCount, List.filter_cons, hmA, Nat.add_comm]
      rw [hcnt]
      push_cast
      congr 1
      rw [LinkVal.mk.injEq]
      constructor
      · ring
      · simp
    · rw [Bool.not_eq_true] at hmA
      rw [hmA] at hstep
      simp only [Bool.false_eq_true, if_false] at hstep
      have hrec := ih (addRecord S T sA tA m d) j v hfull' h1 h2 hstep
      rw [hrec]
      have hcnt : pairCount (d :: vd) sA tA j = pairCount vd sA tA j := by
        simp [pairCount, List.filter_cons, hmA]
      rw [hcnt]

/-- Central characterisation of the render effect's link construction:
for every pair of node labels, the final `linksMap` entry is the dummy
placeholder `0.0001` exactly when no valid record falls on the pair, and
otherwise carries the exact record count. -/
theorem linkFor_alluvialLinks (data : List SurveyResponse) (useTD : Bool) (s t : Field)
    (k : String × String)
    (h1 : k.1 ∈ sortedSources (filteredData data useTD) s)
    (h2 : k.2 ∈ sortedTargets (filteredData data useTD) t) :
    linkFor (alluvialLinks data useTD s t) k =
      some (if pairCount (validData (filteredData data useTD) s t)
                (fieldAccessor s) (fieldAccessor t) k = 0
            then ⟨1 / 10000, true⟩
            else ⟨(pairCount (validData (filteredData data useTD) s t)
                (fieldAccessor s) (fieldAccessor t) k : ℚ), false⟩) := by
  unfold alluvialLinks
  rw [linkFor_finalizeDummies]
  have hfull : ∀ a b, a ∈ sortedSources (filteredData data useTD) s →
      b ∈ sortedTargets (filteredData data useTD) t →
      (a, b) ∈ keysOf (initLinks (sortedSources (filteredData data useTD) s)
        (sortedTargets (filteredData data useTD) t)) := by
    intro a b ha hb
    rw [keysOf_initLinks]
    exact (mem_crossPairs _ _ _).mpr ⟨ha, hb⟩
  have hinit := linkFor_initLinks (sortedSources (filteredData data useTD) s)
    (sortedTargets (filteredData data useTD) t) k h1 h2
  have hover := linkFor_overlayRecords (sortedSources (filteredData data useTD) s)
    (sortedTargets (filteredData data useTD) t) (fieldAccessor s) (fieldAccessor t)
    (validData (filteredData data useTD) s t) _ k ⟨0, true⟩ hfull h1 h2 hinit
  rw [hover]
  by_cases hc : pairCount (validData (filteredData data useTD) s t)
      (fieldAccessor s) (fieldAccessor t) k = 0
  · simp [hc]
  · simp [hc]

/-- Keys of the final links list: exactly the cross product of the
sorted node-label lists, in nested-loop order. -/
theorem keysOf_alluvialLinks (data : List SurveyResponse) (useTD : Bool) (s t : Field) :
    keysOf (alluvialLinks data useTD s t) =
      crossPairs (sortedSources (filteredData data useTD) s)
        (sortedTargets (filteredData data useTD) t) := by
  unfold alluvialLinks
  rw [keysOf_finalizeDummies, keysOf_overlayRecords, keysOf_initLinks]
  intro a b ha hb
  rw [keysOf_initLinks]
  exact (mem_crossPairs _ _ _).mpr ⟨ha, hb⟩

/-! ### Flow sums over the links map -/

/-- Sum of the values of the non-dummy links whose key satisfies `q`
(`q := fun _ => true` gives the total real flow; `q := fun k => k.1 == s`
the flow leaving source node `s`). -/
def flowSum (q : String × String → Bool) (m : LinksMap) : ℚ :=
  ((m.filter (fun e => q e.1 && !e.2.isDummy)).map (fun e => e.2.value)).sum

/-- Sum of the values of all links, dummies included. -/
def totalValue (m : LinksMap) : ℚ :=
  (m.map (fun e => e.2.value)).sum

/-- Number of dummy entries. -/
def dummyCount (m : LinksMap) : ℕ :=
  (m.filter (fun e => e.2.isDummy)).length

/-- Invariant of the construction: an entry still flagged dummy has
value `0` (before step 3 replaces it with `0.0001`). -/
def DummyZero (m : LinksMap) : Prop :=
  ∀ e ∈ m, e.2.isDummy = true → e.2.value = 0

/-- Whether a record contributes to the overlay loop at a pair
satisfying `q`: both accessor values exist, pass the `includes` guards,
and the resulting pair satisfies `q`. -/
def guardMatch (S T : List String) (sA tA : SurveyResponse → Option String)
    (q : String × String → Bool) (d : SurveyResponse) : Bool :=
  match sA d, tA d with
  | some a, some b => decide (a ∈ S) && decide (b ∈ T) && q (a, b)
  | _, _ => false

/-- Number of records contributing at a pair satisfying `q`. -/
def qCount (S T : List String) (sA tA : SurveyResponse → Option String)
    (q : String × String → Bool) (vd : List SurveyResponse) : ℕ :=
  (vd.filter (guardMatch S T sA tA q)).length

/-- Number of eligible records normalising to `label` in field `f`. -/
def labelCount (vd : List SurveyResponse) (f : Field) (label : String) : ℕ :=
  (vd.filter (fun d => fieldAccessor f d == some label)).length

theorem flowSum_cons (q : String × String → Bool) (e : (String × String) × LinkVal)
    (m : LinksMap) :
    flowSum q (e :: m) = (if q e.1 && !e.2.isDummy then e.2.value else 0) + flowSum q m := by
  simp only [flowSum, List.filter_cons]
  split <;> simp

theorem totalValue_cons (e : (String × String) × LinkVal) (m : LinksMap) :
    totalValue (e :: m) = e.2.value + totalValue m := by
  simp [totalValue]

theorem dummyCount_cons (e : (String × String) × LinkVal) (m : LinksMap) :
    dummyCount (e :: m) = (if e.2.isDummy then 1 else 0) + dummyCount m := by
  simp only [dummyCount, List.filter_cons]
  split <;> simp [Nat.add_comm]

theorem flowSum_bumpKey (q : String × String → Bool) (k : String × String) :
    ∀ m : LinksMap, k ∈ keysOf m → (keysOf m).Nodup → DummyZero m →
    flowSum q (bumpKey k m) = flowSum q m + (if q k then 1 else 0) := by
  intro m
  induction m with
  | nil => intro h; cases h
  | cons e rest ih =>
    intro hk hnd hdz
    simp only [keysOf_cons, List.nodup_cons] at hnd
    by_cases hek : e.1 = k
    · have hknr : k ∉ keysOf rest := fun hmem => hnd.1 (hek ▸ hmem)
      have hrest : bumpKey k rest = rest := bumpKey_eq_of_not_mem hknr
      have hqk : (if q k then (1 : ℚ) else 0) = (if q e.1 then (1 : ℚ) else 0) := by rw [hek]
      simp only [bumpKey, List.map_cons] at hrest ⊢
      rw [if_pos hek, hrest, flowSum_cons, flowSum_cons, hqk]
      by_cases hq : q e.1
      · cases hb : e.2.isDummy
        · simp only [hq, hb, Bool.not_false, Bool.and_true, Bool.true_and, if_true]
          ring
        · have hv := hdz e (List.mem_cons_self _ _) hb
          simp [hq, hb, hv] <;> ring
      · simp [hq] <;> ring
    · have hkr : k ∈ keysOf rest := by
        rcases List.mem_cons.mp hk with h | h
        · exact absurd h.symm hek
        · exact h
      have hdzr : DummyZero rest := fun x hx => hdz x (List.mem_cons_of_mem _ hx)
      have := ih hkr hnd.2 hdzr
      simp only [bumpKey, List.map_cons] at this ⊢
      rw [if_neg hek, flowSum_cons, flowSum_cons, this]
      ring

theorem dummyZero_bumpKey (k : String × String) (m : LinksMap) (h : DummyZero m) :
    DummyZero (bumpKey k m) := by
  intro e he hd
  simp only [bumpKey, List.mem_map] at he
  obtain ⟨e₀, he₀, rfl⟩ := he
  by_cases hk : e₀.1 = k
  · rw [if_pos hk] at hd ⊢
    cases hd
  · rw [if_neg hk] at hd ⊢
    exact h e₀ he₀ hd

theorem dummyZero_addRecord (S T : List String) (sA tA : SurveyResponse → Option String)
    (m : LinksMap) (d : SurveyResponse) (h : DummyZero m) :
    DummyZero (addRecord S T sA tA m d) := by
  unfold addRecord
  cases sA d with
  | none => exact h
  | some s =>
    cases tA d with
    | none => exact h
    | some t =>
      dsimp only
      by_cases hst : s ∈ S ∧ t ∈ T
      · rw [if_pos hst]
        by_cases hmem : (s, t) ∈ keysOf m
        · rw [if_pos hmem]
          exact dummyZero_bumpKey _ _ h
        · rw [if_neg hmem]
          intro e he hd
          rcases List.mem_append.mp he with he | he
          · exact h e he hd
          · simp only [List.mem_singleton] at he
            subst he
            cases hd
      · rw [if_neg hst]
        exact h

theorem flowSum_addRecord (S T : List String) (sA tA : SurveyResponse → Option String)
    (q : String × String → Bool) (m : LinksMap) (d : SurveyResponse)
    (hfull : ∀ a b, a ∈ S → b ∈ T → (a, b) ∈ keysOf m)
    (hnd : (keysOf m).Nodup) (hdz : DummyZero m) :
    flowSum q (addRecord S T sA tA m d) =
      flowSum q m + (if guardMatch S T sA tA q d then 1 else 0) := by
  unfold addRecord guardMatch
  cases sA d with
  | none => simp
  | some s =>
    cases tA d with
    | none => simp
    | some t =>
      dsimp only
      by_cases hst : s ∈ S ∧ t ∈ T
      · rw [if_pos hst, if_pos (hfull s t hst.1 hst.2),
          flowSum_bumpKey q (s, t) m (hfull s t hst.1 hst.2) hnd hdz]
        congr 1
        by_cases hq : q (s, t) <;> simp [hst.1, hst.2, hq]
      · rw [if_neg hst]
        have : (decide (s ∈ S) && decide (t ∈ T) && q (s, t)) = false := by
          rcases not_and_or.mp hst with h | h <;> simp [h]
        rw [this]
        simp

theorem flowSum_overlayRecords (S T : List String) (sA tA : SurveyResponse → Option String)
    (q : String × String → Bool) (vd : List SurveyResponse) :
    ∀ m : LinksMap,
    (∀ a b, a ∈ S → b ∈ T → (a, b) ∈ keysOf m) →
    (keysOf m).Nodup → DummyZero m →
    flowSum q (overlayRecords S T sA tA m vd) =
      flowSum q m + (qCount S T sA tA q vd : ℚ) := by
  induction vd with
  | nil =>
    intro m _ _ _
    simp [overlayRecords, qCount]
  | cons d vd ih =>
    intro m hfull hnd hdz
    have hkeys := keysOf_addRecord S T sA tA m d hfull
    have hfull' : ∀ a b, a ∈ S → b ∈ T → (a, b) ∈ keysOf (addRecord S T sA tA m d) :=
      fun a b ha hb => hkeys ▸ hfull a b ha hb
    have hnd' : (keysOf (addRecord S T sA tA m d)).Nodup := hkeys ▸ hnd
    have hdz' := dummyZero_addRecord S T sA tA m d hdz
    simp only [overlayRecords, List.foldl_cons] at ih ⊢
    rw [ih (addRecord S T sA tA m d) hfull' hnd' hdz',
      flowSum_addRecord S T sA tA q m d hfull hnd hdz]
    have hcnt : qCount S T sA tA q (d :: vd) =
        qCount S T sA tA q vd + (if guardMatch S T sA tA q d then 1 else 0) := by
      simp only [qCount, List.filter_cons]
      split <;> simp [Nat.add_comm]
    rw [hcnt]
    push_cast
    split <;> ring

theorem mem_initLinks (S T : List String) (e : (String × String) × LinkVal)
    (h : e ∈ initLinks S T) : e.2 = ⟨0, true⟩ := by
  simp only [initLinks, List.mem_flatMap, List.mem_map] at h
  obtain ⟨s, _, t, _, rfl⟩ := h
  rfl

theorem flowSum_initLinks (q : String × String → Bool) (S T : List String) :
    flowSum q (initLinks S T) = 0 := by
  unfold flowSum
  have : (initLinks S T).filter (fun e => q e.1 && !e.2.isDummy) = [] := by
    rw [List.filter_eq_nil_iff]
    intro e he
    rw [mem_initLinks S T e he]
    simp
  rw [this]
  rfl

theorem dummyZero_initLinks (S T : List String) : DummyZero (initLinks S T) := by
  intro e he _
  rw [mem_initLinks S T e he]

theorem flowSum_finalizeDummies (q : String × String → Bool) (m : LinksMap) :
    flowSum q (finalizeDummies m) = flowSum q m := by
  induction m with
  | nil => rfl
  | cons e rest ih =>
    simp only [finalizeDummies, List.map_cons] at ih ⊢
    by_cases hd : e.2.isDummy
    · rw [if_pos hd, flowSum_cons, flowSum_cons, ih]
      simp [hd]
    · rw [if_neg hd, flowSum_cons, flowSum_cons, ih]

theorem totalValue_finalizeDummies (m : LinksMap) :
    totalValue (finalizeDummies m) =
      flowSum (fun _ => true) m + (dummyCount m : ℚ) * (1 / 10000) := by
  induction m with
  | nil => simp [totalValue, flowSum, dummyCount, finalizeDummies]
  | cons e rest ih =>
    simp only [finalizeDummies, List.map_cons] at ih ⊢
    by_cases hd : e.2.isDummy
    · rw [if_pos hd, totalValue_cons, flowSum_cons, dummyCount_cons, ih]
      simp only [hd, Bool.not_true, Bool.and_false, if_false, if_true]
      push_cast
      ring
    · rw [if_neg hd, totalValue_cons, flowSum_cons, dummyCount_cons, ih]
      simp only [hd, Bool.not_false, Bool.and_true, Bool.true_and, if_false, if_true]
      push_cast
      ring

/-! ### Nodup of the node-label lists -/

theorem nodup_keepValidStrings (l : List (Option String)) (h : l.Nodup) :
    (keepValidStrings l).Nodup := by
  unfold keepValidStrings
  refine List.Nodup.filterMap ?_ h
  intro a a' b hb hb'
  cases a with
  | none => simp at hb
  | some s =>
    cases a' with
    | none => simp at hb'
    | some s' =>
      simp only [Option.mem_def] at hb hb'
      split at hb
      · split at hb' <;> simp_all
      · exact absurd hb (by simp)

theorem nodup_YEARS : YEARS_CATEGORIES.Nodup := by decide

theorem nodup_sources (data : List SurveyResponse) (f : Field) : (sources data f).Nodup := by
  unfold sources
  split
  · exact List.nodup_nil
  split
  · exact nodup_YEARS.filter _
  · exact nodup_keepValidStrings _ (nodup_firstDedup _)

theorem nodup_targets (data : List SurveyResponse) (f : Field) : (targets data f).Nodup := by
  unfold targets
  split
  · exact List.nodup_nil
  split
  · exact nodup_YEARS.filter _
  · exact (List.perm_insertionSort jsLe _).nodup_iff.mpr
      (nodup_keepValidStrings _ (nodup_firstDedup _))

theorem nodup_sortedSources (data : List SurveyResponse) (f : Field) :
    (sortedSources data f).Nodup := by
  unfold sortedSources sortYears sortAlpha
  split <;> exact (List.perm_insertionSort _ _).nodup_iff.mpr (nodup_sources data f)

theorem nodup_sortedTargets (data : List SurveyResponse) (f : Field) :
    (sortedTargets data f).Nodup := by
  unfold sortedTargets sortYears sortAlpha
  split <;> exact (List.perm_insertionSort _ _).nodup_iff.mpr (nodup_targets data f)

theorem nodup_crossPairs (S T : List String) (hS : S.Nodup) (hT : T.Nodup) :
    (crossPairs S T).Nodup := by
  induction S with
  | nil => exact List.nodup_nil
  | cons s S ih =>
    rw [crossPairs, List.flatMap_cons]
    rw [List.nodup_cons] at hS
    refine List.Nodup.append ?_ (ih hS.2) ?_
    · exact hT.map (fun a b => by simp)
    · intro k hk1 hk2
      simp only [List.mem_map] at hk1
      obtain ⟨t, _, rfl⟩ := hk1
      have := (mem_crossPairs S T (s, t)).mp hk2
      exact hS.1 this.1

theorem nodup_keysOf_initLinks (S T : List String) (hS : S.Nodup) (hT : T.Nodup) :
    (keysOf (initLinks S T)).Nodup := by
  rw [keysOf_initLinks]
  exact nodup_crossPairs S T hS hT

/-- Conservation over the full pipeline, relative to a key predicate:
the `q`-restricted sum of non-dummy link values equals the number of
valid records whose accessor pair passes the guards and satisfies `q`. -/
theorem flowSum_alluvialLinks (data : List SurveyResponse) (useTD : Bool) (s t : Field)
    (q : String × String → Bool) :
    flowSum q (alluvialLinks data useTD s t) =
      (qCount (sortedSources (filteredData data useTD) s)
        (sortedTargets (filteredData data useTD) t)
        (fieldAccessor s) (fieldAccessor t) q
        (validData (filteredData data useTD) s t) : ℚ) := by
  unfold alluvialLinks
  rw [flowSum_finalizeDummies,
    flowSum_overlayRecords _ _ _ _ _ _ _
      (fun a b ha hb => by
        rw [keysOf_initLinks]; exact (mem_crossPairs _ _ _).mpr ⟨ha, hb⟩)
      (nodup_keysOf_initLinks _ _ (nodup_sortedSources _ _) (nodup_sortedTargets _ _))
      (dummyZero_initLinks _ _),
    flowSum_initLinks]
  ring

/-! ### The ChordDiagram category computation -/

/-- ChordDiagram.tsx lines 1133-1145: the per-record category. The
years column goes through `getYearsCategory(d.years_at_medtronic || 0)`;
for text columns, `d[field] || 'Unknown'` maps `null` (and the falsy
empty string) to the explicit `"Unknown"` label. -/
def chordAccessor (f : Field) (d : SurveyResponse) : String :=
  if f = .years_at_medtronic then getYearsCategory (.num (yearsOrZero d))
  else match catField d f with
    | some s => if s = "" then "Unknown" else s
    | none => "Unknown"

/-- ChordDiagram.tsx lines 1130-1149: the distinct categories observed
on one side (a JS `Set`, so first-occurrence dedup), then `.sort()`. -/
def chordCategories (data : List SurveyResponse) (f : Field) : List String :=
  sortAlpha (firstDedup (data.map (chordAccessor f)))

/-- The raw per-record value the counting filters compare against a
category (ChordDiagram.tsx lines 1154-1156, 1163-1165 and 1177-1182):
the years column goes through `getYearsCategory(d.years_at_medtronic
|| 0)` as in the category sets, but a text column is read verbatim —
`d[currentSource]` with no `|| 'Unknown'` fallback, so a null value is
`=== `-equal to no category string. -/
def chordRawValue (f : Field) (d : SurveyResponse) : Option String :=
  if f = .years_at_medtronic then some (getYearsCategory (.num (yearsOrZero d)))
  else catField d f

/-- `leftTotals`/`rightTotals` (ChordDiagram.tsx lines 1152-1168): the
number of records whose raw value `=== ` the category. -/
def chordCategoryTotal (data : List SurveyResponse) (f : Field) (cat : String) : ℕ :=
  (data.filter (fun d => chordRawValue f d == some cat)).length

/-- One `connectionMatrix` entry (ChordDiagram.tsx lines 1174-1186),
again comparing the raw values. -/
def chordPairCount (data : List SurveyResponse) (s t : Field) (cs ct : String) : ℕ :=
  (data.filter (fun d => chordRawValue s d == some cs && chordRawValue t d == some ct)).length

/-! ### Concrete record sets used by the claims -/

/-- A record with the given years value and learning style, and no other
answers. -/
def mkRecord (y : ℚ) (ls : String) : SurveyResponse :=
  ⟨some y, some ls, none, none, none, false⟩

/-- The ten records of the spec's end-to-end scenario, paired up
index-wise. -/
def scenarioRecords : List SurveyResponse :=
  [mkRecord 2 "visual", mkRecord 2 "visual", mkRecord 7 "auditory", mkRecord 7 "auditory",
   mkRecord 7 "visual", mkRecord 12 "visual", mkRecord 22 "kinesthetic", mkRecord 22 "visual",
   mkRecord 22 "visual", mkRecord 22 "auditory"]

/-- A record whose `learning_style` column is null. -/
def nullTargetRecord : SurveyResponse := ⟨some 2, none, none, none, none, false⟩

/-- A fully-answered record. -/
def validTargetRecord : SurveyResponse := ⟨some 7, some "visual", none, none, none, false⟩

/-- Two eligible records, one of which has a null `learning_style`. -/
def mixedRecords : List SurveyResponse := [nullTargetRecord, validTargetRecord]

/-- Two fully-valid records. -/
def goodRecords : List SurveyResponse := [mkRecord 2 "visual", mkRecord 7 "auditory"]

/-! ### Claim theorems: aggregation -/

/-- Claim C10. Implicit dummy-edge weight: in the Alluvial aggregation,
every pair of the built cross-product matched by no record produces a
link with `isDummy = true` and value exactly `0.0001` (i.e. `1/10000`,
not `0`), while every pair matched by at least one record produces a
link whose value equals the number of matching records with
`isDummy = false`. -/
theorem dummy_edge_weights (data : List SurveyResponse) (useTD : Bool) (s t : Field)
    (k : String × String)
    (h1 : k.1 ∈ sortedSources (filteredData data useTD) s)
    (h2 : k.2 ∈ sortedTargets (filteredData data useTD) t) :
    (pairCount (validData (filteredData data useTD) s t)
        (fieldAccessor s) (fieldAccessor t) k = 0 →
      linkFor (alluvialLinks data useTD s t) k = some ⟨1 / 10000, true⟩) ∧
    (pairCount (validData (filteredData data useTD) s t)
        (fieldAccessor s) (fieldAccessor t) k ≠ 0 →
      linkFor (alluvialLinks data useTD s t) k =
        some ⟨(pairCount (validData (filteredData data useTD) s t)
          (fieldAccessor s) (fieldAccessor t) k : ℚ), false⟩) := by
  constructor
  · intro h0
    rw [linkFor_alluvialLinks data useTD s t k h1 h2, if_pos h0]
  · intro hne
    rw [linkFor_alluvialLinks data useTD s t k h1 h2, if_neg hne]

/-- Witness for C10 at the end-to-end scenario data: the unmatched pair
`(0-5, auditory)` is a dummy of weight `1/10000`, the matched pair
`(20+, visual)` carries its record count. -/
theorem dummy_edge_weights_witness :
    linkFor (alluvialLinks scenarioRecords true .years_at_medtronic .learning_style)
      ("0-5", "auditory") = some ⟨1 / 10000, true⟩ ∧
    linkFor (alluvialLinks scenarioRecords true .years_at_medtronic .learning_style)
      ("20+", "visual") = some ⟨2, false⟩ := by
  constructor
  · exact (dummy_edge_weights scenarioRecords true .years_at_medtronic .learning_style
      ("0-5", "auditory") (by decide) (by decide)).1 (by decide)
  · have h := (dummy_edge_weights scenarioRecords true .years_at_medtronic .learning_style
      ("20+", "visual") (by decide) (by decide)).2 (by decide)
    rw [show pairCount (validData (filteredData scenarioRecords true)
        .years_at_medtronic .learning_style)
        (fieldAccessor .years_at_medtronic) (fieldAccessor .learning_style)
        ("20+", "visual") = 2 from by decide] at h
    rw [h]
    norm_num

/-- Claim C1 (amended). Conservation holds for the valid population:
for every record set and field pair with distinct fields, the sum of
the non-dummy link values equals the number of eligible records whose
accessor values pass the node-membership guards (records with null or
empty values in a selected field, and null-years records when a years
field is selected, are dropped — see C5); likewise for the flow leaving
each source node and arriving at each target node. When every valid
record passes the guards, the total equals the full eligible-record
count. -/
theorem conservation_amended (data : List SurveyResponse) (useTD : Bool) (s t : Field)
    (hst : s ≠ t) :
    (flowSum (fun _ => true) (alluvialLinks data useTD s t) =
      (qCount (sortedSources (filteredData data useTD) s)
        (sortedTargets (filteredData data useTD) t)
        (fieldAccessor s) (fieldAccessor t) (fun _ => true)
        (validData (filteredData data useTD) s t) : ℚ)) ∧
    (∀ s₀ : String, flowSum (fun k => k.1 == s₀) (alluvialLinks data useTD s t) =
      (qCount (sortedSources (filteredData data useTD) s)
        (sortedTargets (filteredData data useTD) t)
        (fieldAccessor s) (fieldAccessor t) (fun k => k.1 == s₀)
        (validData (filteredData data useTD) s t) : ℚ)) ∧
    (∀ t₀ : String, flowSum (fun k => k.2 == t₀) (alluvialLinks data useTD s t) =
      (qCount (sortedSources (filteredData data useTD) s)
        (sortedTargets (filteredData data useTD) t)
        (fieldAccessor s) (fieldAccessor t) (fun k => k.2 == t₀)
        (validData (filteredData data useTD) s t) : ℚ)) ∧
    ((∀ d ∈ validData (filteredData data useTD) s t,
        guardMatch (sortedSources (filteredData data useTD) s)
          (sortedTargets (filteredData data useTD) t)
          (fieldAccessor s) (fieldAccessor t) (fun _ => true) d) →
      flowSum (fun _ => true) (alluvialLinks data useTD s t) =
        ((validData (filteredData data useTD) s t).length : ℚ)) := by
  refine ⟨flowSum_alluvialLinks data useTD s t _,
    fun s₀ => flowSum_alluvialLinks data useTD s t _,
    fun t₀ => flowSum_alluvialLinks data useTD s t _, ?_⟩
  intro hall
  rw [flowSum_alluvialLinks data useTD s t _]
  unfold qCount
  rw [List.filter_eq_self.mpr hall]

/-- Witness for C1 (amended) on two fully-valid records: the total
real flow equals the number of valid records. -/
theorem conservation_amended_witness :
    Field.years_at_medtronic ≠ Field.learning_style ∧
    flowSum (fun _ => true) (alluvialLinks goodRecords true .years_at_medtronic .learning_style)
      = ((validData (filteredData goodRecords true)
          .years_at_medtronic .learning_style).length : ℚ) :=
  ⟨by decide,
    (conservation_amended goodRecords true .years_at_medtronic .learning_style
      (by decide)).2.2.2 (by decide)⟩

/-- Counterexample to C1 as stated: with two eligible records, one of
them with a null `learning_style`, the sum of all edge values is
`1.0001` (one real record plus one `0.0001` dummy) and not `2`, and the
flow leaving node `0-5` is `0` while one record normalises to `0-5`. -/
theorem conservation_counterexample :
    totalValue (alluvialLinks mixedRecords true .years_at_medtronic .learning_style)
      = 10001 / 10000 ∧
    (filteredData mixedRecords true).length = 2 ∧
    (10001 / 10000 : ℚ) ≠ (2 : ℚ) ∧
    flowSum (fun k => k.1 == "0-5")
      (alluvialLinks mixedRecords true .years_at_medtronic .learning_style) = 0 ∧
    labelCount (filteredData mixedRecords true) .years_at_medtronic "0-5" = 1 ∧
    (0 : ℚ) ≠ (1 : ℚ) := by
  refine ⟨?_, by decide, by norm_num, ?_, by decide, by norm_num⟩
  · unfold alluvialLinks
    rw [totalValue_finalizeDummies,
      flowSum_overlayRecords _ _ _ _ _ _ _
        (fun a b ha hb => by
          rw [keysOf_initLinks]; exact (mem_crossPairs _ _ _).mpr ⟨ha, hb⟩)
        (nodup_keysOf_initLinks _ _ (nodup_sortedSources _ _) (nodup_sortedTargets _ _))
        (dummyZero_initLinks _ _),
      flowSum_initLinks,
      show qCount (sortedSources (filteredData mixedRecords true) .years_at_medtronic)
        (sortedTargets (filteredData mixedRecords true) .learning_style)
        (fieldAccessor .years_at_medtronic) (fieldAccessor .learning_style) (fun _ => true)
        (validData (filteredData mixedRecords true) .years_at_medtronic .learning_style)
        = 1 from by decide,
      show dummyCount (overlayRecords
          (sortedSources (filteredData mixedRecords true) .years_at_medtronic)
          (sortedTargets (filteredData mixedRecords true) .learning_style)
          (fieldAccessor .years_at_medtronic) (fieldAccessor .learning_style)
          (initLinks (sortedSources (filteredData mixedRecords true) .years_at_medtronic)
            (sortedTargets (filteredData mixedRecords true) .learning_style))
          (validData (filteredData mixedRecords true) .years_at_medtronic .learning_style))
        = 1 from by decide]
    norm_num
  · rw [flowSum_alluvialLinks,
      show qCount (sortedSources (filteredData mixedRecords true) .years_at_medtronic)
        (sortedTargets (filteredData mixedRecords true) .learning_style)
        (fieldAccessor .years_at_medtronic) (fieldAccessor .learning_style)
        (fun k => k.1 == "0-5")
        (validData (filteredData mixedRecords true) .years_at_medtronic .learning_style)
        = 0 from by decide]
    norm_num

/-- Claim C2 (amended). End-to-end scenario on the ten records: the
node sets contain only the observed categories — sources
`["0-5", "6-10", "11-15", "20+"]` with counts `2, 3, 1, 4` (no `16-20`
node), targets `["auditory", "kinesthetic", "visual"]` with counts
`3, 1, 6` (no `reading_writing` node) — and the `(20+, visual)` link
carries count `2` (the fourth 22-year record pairs with `kinesthetic`
and the last with `auditory`, so the claimed count 4 is wrong). -/
theorem end_to_end_scenario_amended :
    sortedSources (filteredData scenarioRecords true) .years_at_medtronic
      = ["0-5", "6-10", "11-15", "20+"] ∧
    sortedTargets (filteredData scenarioRecords true) .learning_style
      = ["auditory", "kinesthetic", "visual"] ∧
    labelCount (filteredData scenarioRecords true) .years_at_medtronic "0-5" = 2 ∧
    labelCount (filteredData scenarioRecords true) .years_at_medtronic "6-10" = 3 ∧
    labelCount (filteredData scenarioRecords true) .years_at_medtronic "11-15" = 1 ∧
    labelCount (filteredData scenarioRecords true) .years_at_medtronic "16-20" = 0 ∧
    labelCount (filteredData scenarioRecords true) .years_at_medtronic "20+" = 4 ∧
    labelCount (filteredData scenarioRecords true) .learning_style "visual" = 6 ∧
    labelCount (filteredData scenarioRecords true) .learning_style "auditory" = 3 ∧
    labelCount (filteredData scenarioRecords true) .learning_style "kinesthetic" = 1 ∧
    labelCount (filteredData scenarioRecords true) .learning_style "reading_writing" = 0 ∧
    linkFor (alluvialLinks scenarioRecords true .years_at_medtronic .learning_style)
      ("20+", "visual") = some ⟨2, false⟩ := by
  refine ⟨by decide, by decide, by decide, by decide, by decide, by decide, by decide,
    by decide, by decide, by decide, by decide, ?_⟩
  rw [linkFor_alluvialLinks scenarioRecords true .years_at_medtronic .learning_style
      ("20+", "visual") (by decide) (by decide),
    show pairCount (validData (filteredData scenarioRecords true)
        .years_at_medtronic .learning_style)
      (fieldAccessor .years_at_medtronic) (fieldAccessor .learning_style)
      ("20+", "visual") = 2 from by decide]
  norm_num

/-- Counterexample to C2 as stated: on the scenario records the code
produces no `16-20` source node and no `reading_writing` target node
(observed categories only), and the `(20+, visual)` pair is matched by
2 records, not 4. -/
theorem end_to_end_scenario_counterexample :
    "16-20" ∉ sortedSources (filteredData scenarioRecords true) .years_at_medtronic ∧
    "reading_writing" ∉ sortedTargets (filteredData scenarioRecords true) .learning_style ∧
    pairCount (validData (filteredData scenarioRecords true) .years_at_medtronic .learning_style)
      (fieldAccessor .years_at_medtronic) (fieldAccessor .learning_style) ("20+", "visual") = 2 ∧
    (2 : ℕ) ≠ 4 := by
  exact ⟨by decide, by decide, by decide, by decide⟩

/-- Claim C4 (amended). The edge set contains exactly one entry per
(sourceLabel, targetLabel) pair drawn from the *observed* label lists
(the labels present in the filtered data), and pairs matched by no
record are retained as dummy edges of weight `0.0001` rather than
dropped; pairs involving declared-catalog labels absent from the data
do not appear at all. -/
theorem cross_product_amended (data : List SurveyResponse) (useTD : Bool) (s t : Field) :
    keysOf (alluvialLinks data useTD s t) =
      crossPairs (sortedSources (filteredData data useTD) s)
        (sortedTargets (filteredData data useTD) t) ∧
    (keysOf (alluvialLinks data useTD s t)).Nodup ∧
    (∀ k ∈ crossPairs (sortedSources (filteredData data useTD) s)
        (sortedTargets (filteredData data useTD) t),
      pairCount (validData (filteredData data useTD) s t)
        (fieldAccessor s) (fieldAccessor t) k = 0 →
      linkFor (alluvialLinks data useTD s t) k = some ⟨1 / 10000, true⟩) := by
  refine ⟨keysOf_alluvialLinks data useTD s t, ?_, ?_⟩
  · rw [keysOf_alluvialLinks data useTD s t]
    exact nodup_crossPairs _ _ (nodup_sortedSources _ _) (nodup_sortedTargets _ _)
  · intro k hk h0
    obtain ⟨h1, h2⟩ := (mem_crossPairs _ _ k).mp hk
    rw [linkFor_alluvialLinks data useTD s t k h1 h2, if_pos h0]

/-- Witness for C4 (amended) on the mixed records: the key list is the
cross product of the observed labels, and the unmatched `(0-5, visual)`
pair is retained as a dummy. -/
theorem cross_product_amended_witness :
    keysOf (alluvialLinks mixedRecords true .years_at_medtronic .learning_style) =
      crossPairs (sortedSources (filteredData mixedRecords true) .years_at_medtronic)
        (sortedTargets (filteredData mixedRecords true) .learning_style) ∧
    linkFor (alluvialLinks mixedRecords true .years_at_medtronic .learning_style)
      ("0-5", "visual") = some ⟨1 / 10000, true⟩ :=
  ⟨(cross_product_amended mixedRecords true .years_at_medtronic .learning_style).1,
   (cross_product_amended mixedRecords true .years_at_medtronic .learning_style).2.2
     ("0-5", "visual") (by decide) (by decide)⟩

/-- Counterexample to C4 as stated: `16-20` belongs to the declared
years catalog, yet on the scenario records no edge with source label
`16-20` exists in the edge set (the cross product is built from
observed labels, not the declared catalogs). -/
theorem cross_product_counterexample :
    "16-20" ∈ YEARS_CATEGORIES ∧
    ("16-20", "visual") ∉
      keysOf (alluvialLinks scenarioRecords true .years_at_medtronic .learning_style) ∧
    "reading_writing" ∉
      (keysOf (alluvialLinks scenarioRecords true .years_at_medtronic .learning_style)).map
        Prod.snd := by
  exact ⟨by decide, by decide, by decide⟩

/-- Claim C5. Unknown-label policy divergence: on a record whose
`learning_style` is null, the AlluvialDiagram drops the record entirely
(no target node, no link — it is counted nowhere), and the
ChordDiagram, although its category set maps the null to an explicit
`"Unknown"` label (so an arc labelled `Unknown` appears), compares the
raw field value in `leftTotals` and `connectionMatrix`, so the record
is counted in no category total and in no matrix cell either — in
particular the `"Unknown"` total is 0, not 1. Both components silently
drop the record from the aggregation counts, against the claimed policy
that it is still counted in exactly one node per field and in an
edge. -/
theorem unknown_label_policy_divergence :
    targets (filteredData [nullTargetRecord] true) .learning_style = [] ∧
    alluvialLinks [nullTargetRecord] true .years_at_medtronic .learning_style = [] ∧
    chordCategories (filteredData [nullTargetRecord] true) .learning_style = ["Unknown"] ∧
    chordCategoryTotal (filteredData [nullTargetRecord] true) .learning_style "Unknown" = 0 ∧
    (∀ cat : String,
      chordCategoryTotal (filteredData [nullTargetRecord] true) .learning_style cat = 0) ∧
    (∀ cs ct : String,
      chordPairCount (filteredData [nullTargetRecord] true)
        .years_at_medtronic .learning_style cs ct = 0) := by
  have hraw : chordRawValue .learning_style nullTargetRecord = none := rfl
  refine ⟨by decide, by decide, by decide, by decide, ?_, ?_⟩
  · intro cat
    show (List.filter _ [nullTargetRecord]).length = 0
    rw [List.filter_cons]
    rw [if_neg (by rw [hraw]; simp)]
    rfl
  · intro cs ct
    show (List.filter _ [nullTargetRecord]).length = 0
    rw [List.filter_cons]
    rw [if_neg (by rw [hraw]; simp)]
    rfl

/-! ### Order properties of the sort comparators -/

theorem charListLe_total : ∀ a b : List Char, charListLe a b = true ∨ charListLe b a = true := by
  intro a
  induction a with
  | nil => intro b; exact Or.inl rfl
  | cons c cs ih =>
    intro b
    cases b with
    | nil => exact Or.inr rfl
    | cons d ds =>
      simp only [charListLe]
      rcases Nat.lt_trichotomy c.toNat d.toNat with h | h | h
      · left; rw [if_pos h]
      · rw [if_neg (by omega), if_neg (by omega), if_neg (by omega), if_neg (by omega)]
        exact ih ds
      · right; rw [if_pos h]

theorem charListLe_trans : ∀ a b c : List Char,
    charListLe a b = true → charListLe b c = true → charListLe a c = true := by
  intro a
  induction a with
  | nil => intro b c _ _; rfl
  | cons x xs ih =>
    intro b c hab hbc
    cases b with
    | nil => cases hab
    | cons y ys =>
      cases c with
      | nil => cases hbc
      | cons z zs =>
        simp only [charListLe] at hab hbc ⊢
        by_cases hxy : x.toNat < y.toNat
        · by_cases hyz : y.toNat < z.toNat
          · rw [if_pos (by omega)]
          · rw [if_neg (by omega)] at hbc
            by_cases hzy : z.toNat < y.toNat
            · rw [if_pos hzy] at hbc; cases hbc
            · rw [if_pos (by omega)]
        · rw [if_neg hxy] at hab
          by_cases hyx : y.toNat < x.toNat
          · rw [if_pos hyx] at hab; cases hab
          · rw [if_neg hyx] at hab
            by_cases hyz : y.toNat < z.toNat
            · rw [if_pos (by omega)]
            · rw [if_neg hyz] at hbc
              by_cases hzy : z.toNat < y.toNat
              · rw [if_pos hzy] at hbc; cases hbc
              · rw [if_neg hzy] at hbc
                rw [if_neg (by omega), if_neg (by omega)]
                exact ih ys zs hab hbc

theorem charListLe_antisymm : ∀ a b : List Char,
    charListLe a b = true → charListLe b a = true → a = b := by
  intro a
  induction a with
  | nil =>
    intro b _ hba
    cases b with
    | nil => rfl
    | cons d ds => cases hba
  | cons c cs ih =>
    intro b hab hba
    cases b with
    | nil => cases hab
    | cons d ds =>
      simp only [charListLe] at hab hba
      by_cases hcd : c.toNat < d.toNat
      · rw [if_neg (by omega), if_pos hcd] at hba; cases hba
      · rw [if_neg hcd] at hab
        by_cases hdc : d.toNat < c.toNat
        · rw [if_pos hdc] at hab; cases hab
        · rw [if_neg hdc] at hab
          rw [if_neg hdc, if_neg hcd] at hba
          have hc : c = d := Char.ext (UInt32.ext (show c.toNat = d.toNat by omega))
          rw [hc, ih ds hab hba]

instance : IsTotal String jsLe :=
  ⟨fun a b => charListLe_total a.data b.data⟩

instance : IsTrans String jsLe :=
  ⟨fun a b c => charListLe_trans a.data b.data c.data⟩

instance : IsAntisymm String jsLe :=
  ⟨fun a b hab hba => by
    cases a; cases b
    exact congrArg String.mk (charListLe_antisymm _ _ hab hba)⟩

/-- The sort relation of the years comparator
`(a, b) => YEARS_CATEGORIES.indexOf(a) - YEARS_CATEGORIES.indexOf(b)`. -/
def yearsLe (a b : String) : Prop := yearsIdx a ≤ yearsIdx b

instance : DecidableRel yearsLe := fun a b => Nat.decLe _ _

instance : IsTotal String yearsLe := ⟨fun a b => Nat.le_total _ _⟩

instance : IsTrans String yearsLe := ⟨fun _ _ _ => Nat.le_trans⟩

theorem perm_firstDedup {α : Type} [DecidableEq α] (l₁ l₂ : List α) (h : l₁.Perm l₂) :
    (firstDedup l₁).Perm (firstDedup l₂) := by
  rw [List.perm_iff_count]
  intro a
  by_cases hm : a ∈ l₁
  · rw [List.count_eq_one_of_mem (nodup_firstDedup l₁) ((mem_firstDedup a l₁).mpr hm),
      List.count_eq_one_of_mem (nodup_firstDedup l₂)
        ((mem_firstDedup a l₂).mpr (h.mem_iff.mp hm))]
  · rw [List.count_eq_zero_of_not_mem (fun hc => hm ((mem_firstDedup a l₁).mp hc)),
      List.count_eq_zero_of_not_mem
        (fun hc => hm (h.mem_iff.mpr ((mem_firstDedup a l₂).mp hc)))]

theorem sortAlpha_eq_of_perm (l₁ l₂ : List String) (h : l₁.Perm l₂) :
    sortAlpha l₁ = sortAlpha l₂ := by
  refine List.eq_of_perm_of_sorted ?_ (List.sorted_insertionSort jsLe l₁)
    (List.sorted_insertionSort jsLe l₂)
  exact ((List.perm_insertionSort jsLe l₁).trans h).trans
    (List.perm_insertionSort jsLe l₂).symm

theorem any_eq_of_perm {α : Type} (l₁ l₂ : List α) (h : l₁.Perm l₂) (p : α → Bool) :
    l₁.any p = l₂.any p := by
  by_cases hp : ∃ x ∈ l₁, p x
  · obtain ⟨x, hx, hpx⟩ := hp
    rw [List.any_eq_true.mpr ⟨x, hx, hpx⟩, List.any_eq_true.mpr ⟨x, h.mem_iff.mp hx, hpx⟩]
  · rw [List.any_eq_false.mpr, List.any_eq_false.mpr]
    · intro x hx hpx
      exact hp ⟨x, h.mem_iff.mpr hx, hpx⟩
    · intro x hx hpx
      exact hp ⟨x, hx, hpx⟩

/-- The years branch of the `sources` memo is the fixed category list
filtered to the observed categories (also when the data is empty). -/
theorem sources_years (data : List SurveyResponse) :
    sources data .years_at_medtronic =
      YEARS_CATEGORIES.filter (fun cat =>
        data.any (fun d => getValidYearsCategory (.num (yearsOrZero d)) == cat)) := by
  unfold sources
  by_cases hemp : data.isEmpty
  · rw [if_pos hemp]
    have hd : data = [] := by
      cases data
      · rfl
      · cases hemp
    subst hd
    rw [List.filter_eq_nil_iff.mpr (by intro x _; simp)]
  · rw [if_neg hemp, if_pos rfl]

theorem targets_years (data : List SurveyResponse) :
    targets data .years_at_medtronic =
      YEARS_CATEGORIES.filter (fun cat =>
        data.any (fun d => getValidYearsCategory (.num (yearsOrZero d)) == cat)) := by
  unfold targets
  by_cases hemp : data.isEmpty
  · rw [if_pos hemp]
    have hd : data = [] := by
      cases data
      · rfl
      · cases hemp
    subst hd
    rw [List.filter_eq_nil_iff.mpr (by intro x _; simp)]
  · rw [if_neg hemp, if_pos rfl]

theorem sorted_yearsLe_YEARS : List.Sorted yearsLe YEARS_CATEGORIES := by
  rw [List.Sorted]
  decide

/-- Sorting a sublist of the fixed years category list by bucket index
leaves it unchanged: it is already in bucket order. -/
theorem sortYears_filter_YEARS (p : String → Bool) :
    sortYears (YEARS_CATEGORIES.filter p) = YEARS_CATEGORIES.filter p :=
  List.Sorted.insertionSort_eq (List.Pairwise.filter p sorted_yearsLe_YEARS)

/-- The categorical label list is permutation-invariant as a multiset;
two permuted data sets give permuted label lists. -/
theorem perm_keepValidStrings_of_perm (d₁ d₂ : List SurveyResponse) (f : Field)
    (h : d₁.Perm d₂) :
    (keepValidStrings (firstDedup (d₁.map (fun d => catField d f)))).Perm
      (keepValidStrings (firstDedup (d₂.map (fun d => catField d f)))) :=
  (perm_firstDedup _ _ (h.map (fun d => catField d f))).filterMap _

theorem isEmpty_eq_of_perm {α : Type} (l₁ l₂ : List α) (h : l₁.Perm l₂) :
    l₁.isEmpty = l₂.isEmpty := by
  have hlen := h.length_eq
  cases l₁ <;> cases l₂ <;> simp_all

/-- Determinism of the node-label computation: permuted record lists
produce identical sorted label lists. -/
theorem sortedSources_eq_of_perm (d₁ d₂ : List SurveyResponse) (f : Field)
    (h : d₁.Perm d₂) : sortedSources d₁ f = sortedSources d₂ f := by
  unfold sortedSources
  by_cases hf : f = Field.years_at_medtronic
  · subst hf
    rw [if_pos rfl, if_pos rfl, sources_years, sources_years,
      List.filter_congr (fun cat _ => by rw [any_eq_of_perm d₁ d₂ h])]
  · rw [if_neg hf, if_neg hf]
    apply sortAlpha_eq_of_perm
    unfold sources
    rw [isEmpty_eq_of_perm d₁ d₂ h]
    by_cases hemp : d₂.isEmpty
    · rw [if_pos hemp, if_pos hemp]
    · rw [if_neg hemp, if_neg hemp, if_neg hf, if_neg hf]
      exact perm_keepValidStrings_of_perm d₁ d₂ f h

theorem sortedTargets_eq_of_perm (d₁ d₂ : List SurveyResponse) (f : Field)
    (h : d₁.Perm d₂) : sortedTargets d₁ f = sortedTargets d₂ f := by
  unfold sortedTargets
  by_cases hf : f = Field.years_at_medtronic
  · subst hf
    rw [if_pos rfl, if_pos rfl, targets_years, targets_years,
      List.filter_congr (fun cat _ => by rw [any_eq_of_perm d₁ d₂ h])]
  · rw [if_neg hf, if_neg hf]
    have ht : targets d₁ f = targets d₂ f := by
      unfold targets
      rw [isEmpty_eq_of_perm d₁ d₂ h]
      by_cases hemp : d₂.isEmpty
      · rw [if_pos hemp, if_pos hemp]
      · rw [if_neg hemp, if_neg hemp, if_neg hf, if_neg hf]
        exact List.eq_of_perm_of_sorted
          (((List.perm_insertionSort jsLe _).trans
            (perm_keepValidStrings_of_perm d₁ d₂ f h)).trans
            (List.perm_insertionSort jsLe _).symm)
          (List.sorted_insertionSort jsLe _) (List.sorted_insertionSort jsLe _)
    rw [ht]

/-- Claim C7. Determinism and idempotence of aggregate+layout node
ordering: the sorted node-label lists are a function of the record
multiset only (permuting the input changes nothing); the years field is
always in fixed bucket order (the canonical category list filtered to
the observed buckets); categorical fields are always lexicographically
sorted; and re-applying either sort is the identity, so re-layout on
the same input reproduces the same ordering. (Pixel extents are
computed from this ordering by the external `d3-sankey` library, a pure
function of the same inputs.) -/
theorem determinism_idempotence :
    (∀ (d₁ d₂ : List SurveyResponse) (f : Field), d₁.Perm d₂ →
      sortedSources d₁ f = sortedSources d₂ f ∧ sortedTargets d₁ f = sortedTargets d₂ f) ∧
    (∀ data : List SurveyResponse,
      sortedSources data .years_at_medtronic =
        YEARS_CATEGORIES.filter (fun cat =>
          data.any (fun d => getValidYearsCategory (.num (yearsOrZero d)) == cat)) ∧
      List.Sorted yearsLe (sortedSources data .years_at_medtronic) ∧
      List.Sorted yearsLe (sortedTargets data .years_at_medtronic)) ∧
    (∀ (data : List SurveyResponse) (f : Field), f ≠ .years_at_medtronic →
      List.Sorted jsLe (sortedSources data f) ∧ List.Sorted jsLe (sortedTargets data f)) ∧
    (∀ l : List String, sortAlpha (sortAlpha l) = sortAlpha l ∧
      sortYears (sortYears l) = sortYears l) := by
  refine ⟨fun d₁ d₂ f h => ⟨sortedSources_eq_of_perm d₁ d₂ f h,
      sortedTargets_eq_of_perm d₁ d₂ f h⟩, ?_, ?_, ?_⟩
  · intro data
    have hs : sortedSources data .years_at_medtronic =
        YEARS_CATEGORIES.filter (fun cat =>
          data.any (fun d => getValidYearsCategory (.num (yearsOrZero d)) == cat)) := by
      unfold sortedSources
      rw [if_pos rfl, sources_years, sortYears_filter_YEARS]
    have ht : sortedTargets data .years_at_medtronic =
        YEARS_CATEGORIES.filter (fun cat =>
          data.any (fun d => getValidYearsCategory (.num (yearsOrZero d)) == cat)) := by
      unfold sortedTargets
      rw [if_pos rfl, targets_years, sortYears_filter_YEARS]
    refine ⟨hs, ?_, ?_⟩
    · rw [hs]
      exact List.Pairwise.filter _ sorted_yearsLe_YEARS
    · rw [ht]
      exact List.Pairwise.filter _ sorted_yearsLe_YEARS
  · intro data f hf
    constructor
    · unfold sortedSources sortAlpha
      rw [if_neg hf]
      exact List.sorted_insertionSort jsLe _
    · unfold sortedTargets sortAlpha
      rw [if_neg hf]
      exact List.sorted_insertionSort jsLe _
  · intro l
    exact ⟨List.Sorted.insertionSort_eq (List.sorted_insertionSort jsLe l),
      List.Sorted.insertionSort_eq (List.sorted_insertionSort yearsLe l)⟩

/-- Witness for C7: swapping two records changes nothing, and a
categorical label list is lexicographically sorted. -/
theorem determinism_idempotence_witness :
    sortedSources [nullTargetRecord, validTargetRecord] .learning_style
      = sortedSources [validTargetRecord, nullTargetRecord] .learning_style ∧
    List.Sorted jsLe (sortedTargets goodRecords .learning_style) :=
  ⟨(determinism_idempotence.1 [nullTargetRecord, validTargetRecord]
      [validTargetRecord, nullTargetRecord] .learning_style
      (List.Perm.swap validTargetRecord nullTargetRecord [])).1,
   (determinism_idempotence.2.2.1 goodRecords .learning_style (by decide)).2⟩

/-! ### Self-pair guards (C6) -/

/-- `availableFields` of AlluvialDiagram.tsx (lines 64-71), as field
values and in source order. -/
def alluvialFields : List Field :=
  [.years_at_medtronic, .learning_style, .shaped_by, .peak_performance, .motivation]

/-- The Alluvial sequencer's target rotation list (lines 409-411):
every available field except the current source. -/
def targetOptions (f : Field) : List Field :=
  alluvialFields.filter (fun g => g != f)

/-- The Alluvial sequencer's next source field (lines 517-520):
advance cyclically through `availableFields`. -/
def nextSourceField (f : Field) : Field :=
  alluvialFields.getD ((alluvialFields.indexOf f + 1) % alluvialFields.length) f

/-- `availableFields` of ChordDiagram.tsx (lines 121-127); note the
different order. -/
def chordAvailableFields : List Field :=
  [.years_at_medtronic, .peak_performance, .learning_style, .motivation, .shaped_by]

/-- `ensureDifferentCategories` from ChordDiagram.tsx lines 430-437:
on a degenerate request, the target is replaced by the first available
field other than the source (falling back to `learning_style`). -/
def ensureDifferentCategories (s t : Field) : Field × Field :=
  if s = t then
    (s, (chordAvailableFields.find? (fun g => g != s)).getD .learning_style)
  else (s, t)

/-- The state of the Chord auto-cycling rotation: the mode index held in
`currentModeIndexRef` plus the displayed field pair. -/
structure ChordCycleState where
  modeIndex : ℕ
  source : Field
  target : Field
deriving DecidableEq, Repr

/-- One tick of the Chord auto-cycling interval (ChordDiagram.tsx lines
476-497), parametric in the `cyclingModes` list (imported from
`shared/chordUtils`, which is not among the provided sources): compute
the next mode index; if that mode is a self-pair, warn and return
without updating the index or the pair; otherwise advance. An
out-of-range lookup (empty mode list) also leaves the state unchanged. -/
def chordTick (modes : List (Field × Field)) (st : ChordCycleState) : ChordCycleState :=
  let next := (st.modeIndex + 1) % modes.length
  match modes[next]? with
  | none => st
  | some m => if m.1 = m.2 then st else ⟨next, m.1, m.2⟩

/-- Claim C6 (amended). Self-pair guard: a requested pair with source
equal to target is auto-corrected by the Chord selector to the first
available field other than the source; the Alluvial rotation's target
options never contain the source (so its rotation never selects a
self-pair and always has a valid target); and a Chord rotation tick
whose next mode is a self-pair refuses to apply it — but it leaves the
mode index and pair unchanged (stalling on the current valid pair)
rather than skipping forward to the next valid pair. No degenerate
self-pair is ever rendered. -/
theorem self_pair_guard_amended :
    (∀ s t : Field, (ensureDifferentCategories s t).2 ≠ (ensureDifferentCategories s t).1) ∧
    (∀ s t : Field, s ≠ t → ensureDifferentCategories s t = (s, t)) ∧
    (∀ s : Field, (ensureDifferentCategories s s).2 =
      (if s = .years_at_medtronic then .peak_performance else .years_at_medtronic)) ∧
    (∀ f : Field, f ∉ targetOptions f) ∧
    (∀ f : Field, (targetOptions f).length = 4) ∧
    (∀ f g : Field, g ∈ targetOptions f → g ≠ f) ∧
    (∀ (modes : List (Field × Field)) (st : ChordCycleState),
      st.source ≠ st.target →
        (chordTick modes st).source ≠ (chordTick modes st).target) ∧
    (∀ (modes : List (Field × Field)) (st : ChordCycleState) (m : Field × Field),
      modes[(st.modeIndex + 1) % modes.length]? = some m → m.1 = m.2 →
      chordTick modes st = st) := by
  refine ⟨by decide, by decide, by decide, by decide, by decide, ?_, ?_, ?_⟩
  · intro f g hg
    simp only [targetOptions, List.mem_filter, bne_iff_ne, ne_eq] at hg
    exact hg.2
  · intro modes st hst
    cases hm : modes[(st.modeIndex + 1) % modes.length]? with
    | none => simpa [chordTick, hm] using hst
    | some m =>
      by_cases hmm : m.1 = m.2
      · simpa [chordTick, hm, hmm] using hst
      · simpa [chordTick, hm, hmm] using hmm
  · intro modes st m hm hmm
    simp [chordTick, hm, hmm]

/-- Witness for C6 (amended): a degenerate request on `learning_style`
is corrected to `years_at_medtronic`; a tick from a valid pair stays
valid. -/
theorem self_pair_guard_amended_witness :
    ensureDifferentCategories .years_at_medtronic .learning_style =
      (.years_at_medtronic, .learning_style) ∧
    (ensureDifferentCategories .learning_style .learning_style).2 = .years_at_medtronic ∧
    chordTick [(.learning_style, .shaped_by), (.shaped_by, .shaped_by)]
        ⟨0, .learning_style, .shaped_by⟩ =
      ⟨0, .learning_style, .shaped_by⟩ :=
  ⟨self_pair_guard_amended.2.1 .years_at_medtronic .learning_style (by decide),
   by
    have h := self_pair_guard_amended.2.2.1 .learning_style
    rw [h]
    decide,
   self_pair_guard_amended.2.2.2.2.2.2.2
     [(.learning_style, .shaped_by), (.shaped_by, .shaped_by)]
     ⟨0, .learning_style, .shaped_by⟩ (.shaped_by, .shaped_by) (by decide) (by decide)⟩

/-- A hypothetical `cyclingModes` list whose second mode is degenerate. -/
def badCyclingModes : List (Field × Field) :=
  [(.learning_style, .motivation), (.shaped_by, .shaped_by),
   (.years_at_medtronic, .peak_performance)]

/-- The rotation state displaying the first (valid) mode. -/
def stuckState : ChordCycleState := ⟨0, .learning_style, .motivation⟩

/-- Counterexample to C6 as stated: when the rotation's next mode is a
self-pair, the tick does not skip forward to the next valid pair — it
leaves the index and the pair unchanged, so every further tick retries
the same invalid mode and the rotation never reaches the following
valid pair `(years_at_medtronic, peak_performance)`. -/
theorem self_pair_guard_counterexample :
    chordTick badCyclingModes stuckState = stuckState ∧
    chordTick badCyclingModes (chordTick badCyclingModes stuckState) = stuckState ∧
    stuckState ≠ ⟨2, .years_at_medtronic, .peak_performance⟩ := by
  exact ⟨by decide, by decide, by decide⟩

/-! ### The Alluvial highlight sequencer as a state machine -/

/-- `animationPhase` React state. -/
inductive AnimPhase where
  | full
  | highlighting
  | transitioning
deriving DecidableEq, Repr

/-- The bodies of the `setTimeout` callbacks of the sequencer:
advancing to the next source (line 449), moving to the next target
category (line 474), moving to the next source category (line 512), the
inner restart timers (lines 496 and 542), and the delayed restart of
`resumeAnimation` (line 1367). -/
inductive AnimCallback where
  | advanceSource
  | nextTargetStep
  | nextSourceStep
  | restartStep
  | resumeStep
deriving DecidableEq, Repr

/-- The mutable sequencer state: the `animationRef` record plus the
React states it drives (`animationPhase`, `isInFullOpacityState`,
`hoveredSourceIndex`, `currentSource`, `currentTarget`). -/
structure AnimState where
  timer : Option AnimCallback
  running : Bool
  isPaused : Bool
  currentSourceIndex : ℕ
  currentTargetIndex : ℕ
  cycleCount : ℕ
  phase : AnimPhase
  isInFullOpacityState : Bool
  hoveredSourceIndex : Option ℕ
  currentSource : Field
  currentTarget : Field
deriving DecidableEq, Repr

/-- The `animate` function (AlluvialDiagram.tsx lines 376-549),
parametric in the source-node count `N` (`sortedSources.length`) and
the eligible-record count `dataLen`: bail out when paused, stopped or
without data; reset the indices once the cycle counter exceeds 1000;
highlight the current source index; then schedule the next callback. -/
def animate (N dataLen : ℕ) (s : AnimState) : AnimState :=
  if s.isPaused then s
  else if !s.running || dataLen == 0 then s
  else
    let s1 := if s.cycleCount > 1000 then
        { s with cycleCount := 0, currentSourceIndex := 0, currentTargetIndex := 0 }
      else s
    let s2 := { s1 with
                cycleCount := s1.cycleCount + 1
                phase := .highlighting
                isInFullOpacityState := false
                hoveredSourceIndex := some s1.currentSourceIndex }
    if s2.currentSourceIndex < N - 1 then { s2 with timer := some .advanceSource }
    else if s2.currentTargetIndex < (targetOptions s2.currentSource).length - 1 then
      { s2 with timer := some .nextTargetStep }
    else { s2 with timer := some .nextSourceStep }

/-- One timer callback firing, with the guard each body performs first
(AlluvialDiagram.tsx lines 450, 475, 496-498, 513, 542-544, 1368).

The `.nextSourceStep` transition folds in the restart of the animation
effect that its `setCurrentSource` call triggers: `currentSource` is a
dependency of the animation `useEffect` (line 643), whose body resets
both indices and zeroes the cycle counter before calling `animate`
again (lines 620-627) — so a source-category change always restarts
the new phase with `cycleCount = 0`. (`setCurrentTarget` does not
re-trigger the effect: `currentTarget` is not among its
dependencies.) -/
def fireCallback (N dataLen : ℕ) (c : AnimCallback) (s : AnimState) : AnimState :=
  match c with
  | .advanceSource =>
    if !s.running || s.isPaused then s
    else animate N dataLen { s with currentSourceIndex := s.currentSourceIndex + 1 }
  | .nextTargetStep =>
    if !s.running || s.isPaused then s
    else
      { s with
        phase := .transitioning
        currentTargetIndex := s.currentTargetIndex + 1
        currentTarget := (targetOptions s.currentSource).getD
          (s.currentTargetIndex + 1) s.currentTarget
        currentSourceIndex := 0
        timer := some .restartStep }
  | .nextSourceStep =>
    if !s.running || s.isPaused then s
    else
      { s with
        phase := .transitioning
        currentSource := nextSourceField s.currentSource
        currentSourceIndex := 0
        currentTargetIndex := 0
        cycleCount := 0
        currentTarget := (targetOptions (nextSourceField s.currentSource)).getD 0
          s.currentTarget
        timer := some .restartStep }
  | .restartStep =>
    if s.running && !s.isPaused then animate N dataLen s else s
  | .resumeStep =>
    if s.running && !s.isPaused then animate N dataLen s else s

/-- Firing a pending timer: the handle is consumed, then its body runs. -/
def step (N dataLen : ℕ) (s : AnimState) : AnimState :=
  match s.timer with
  | some c => fireCallback N dataLen c { s with timer := none }
  | none => s

/-- Stopping the sequencer — the autoplay-disabled branch (lines
574-583) and the effect cleanup (lines 629-637): clear the pending
timer, clear `running`, return to the full-opacity view. -/
def stopAnimation (s : AnimState) : AnimState :=
  { s with timer := none, running := false, phase := .full, isInFullOpacityState := true }

/-- `pauseAnimation` (lines 1336-1353): when running and not yet
paused, set the pause flag and cancel the pending timer. -/
def pauseAnimation (s : AnimState) : AnimState :=
  if s.running && !s.isPaused then { s with isPaused := true, timer := none } else s

/-- `resumeAnimation` (lines 1355-1373): when running and paused, clear
the pause flag and schedule a delayed restart. -/
def resumeAnimation (s : AnimState) : AnimState :=
  if s.running && s.isPaused then { s with isPaused := false, timer := some .resumeStep }
  else s

/-- Claim C8. Cancellation safety: stopping the sequencer clears the
pending timer, and every timer callback checks the running/paused flags
before acting, so any stale callback firing after a stop leaves the
entire animation state unchanged. -/
theorem cancellation_safety (N dataLen : ℕ) (c : AnimCallback) (s : AnimState) :
    (stopAnimation s).timer = none ∧
    fireCallback N dataLen c (stopAnimation s) = stopAnimation s := by
  refine ⟨rfl, ?_⟩
  have hrun : (stopAnimation s).running = false := rfl
  have hguard1 : (!(stopAnimation s).running || (stopAnimation s).isPaused) = true := by
    rw [hrun]
    rfl
  have hguard2 : ((stopAnimation s).running && !(stopAnimation s).isPaused) = false := by
    rw [hrun]
    rfl
  cases c
  · unfold fireCallback
    dsimp only
    rw [if_pos hguard1]
  · unfold fireCallback
    dsimp only
    rw [if_pos hguard1]
  · unfold fireCallback
    dsimp only
    rw [if_pos hguard1]
  · unfold fireCallback
    dsimp only
    rw [if_neg (fun h => by rw [hguard2] at h; exact nomatch h)]
  · unfold fireCallback
    dsimp only
    rw [if_neg (fun h => by rw [hguard2] at h; exact nomatch h)]

/-- The state at the start of a source-cycling phase: not paused, the
source index reset to 0, the cycle counter at `c₀`. -/
def phaseStart (c₀ tIdx : ℕ) (src tgt : Field) : AnimState :=
  { timer := none, running := true, isPaused := false, currentSourceIndex := 0,
    currentTargetIndex := tIdx, cycleCount := c₀, phase := .full,
    isInFullOpacityState := false, hoveredSourceIndex := none,
    currentSource := src, currentTarget := tgt }

/-- The machine state after the phase has highlighted index `i`. -/
def phaseState (N c₀ tIdx : ℕ) (src tgt : Field) (i : ℕ) : AnimState :=
  { timer := some (if i < N - 1 then .advanceSource
      else if tIdx < (targetOptions src).length - 1 then .nextTargetStep
      else .nextSourceStep),
    running := true, isPaused := false, currentSourceIndex := i, currentTargetIndex := tIdx,
    cycleCount := c₀ + i + 1, phase := .highlighting, isInFullOpacityState := false,
    hoveredSourceIndex := some i, currentSource := src, currentTarget := tgt }

theorem animate_shape (N dataLen : ℕ) (tm : Option AnimCallback) (c tIdx i : ℕ)
    (ph : AnimPhase) (fop : Bool) (hov : Option ℕ) (src tgt : Field)
    (hd : 0 < dataLen) (hc : c ≤ 1000) :
    animate N dataLen ⟨tm, true, false, i, tIdx, c, ph, fop, hov, src, tgt⟩ =
      { timer := some (if i < N - 1 then .advanceSource
          else if tIdx < (targetOptions src).length - 1 then .nextTargetStep
          else .nextSourceStep),
        running := true, isPaused := false, currentSourceIndex := i,
        currentTargetIndex := tIdx, cycleCount := c + 1, phase := .highlighting,
        isInFullOpacityState := false, hoveredSourceIndex := some i,
        currentSource := src, currentTarget := tgt } := by
  unfold animate
  simp only []
  rw [if_neg (by simp)]
  rw [if_neg (by simp [Nat.pos_iff_ne_zero.mp hd])]
  rw [if_neg (by omega : ¬ c > 1000)]
  by_cases h1 : i < N - 1
  · rw [if_pos h1, if_pos h1]
  · rw [if_neg h1, if_neg h1]
    by_cases h2 : tIdx < (targetOptions src).length - 1
    · rw [if_pos h2, if_pos h2]
    · rw [if_neg h2, if_neg h2]

theorem phase_invariant (N dataLen c₀ tIdx : ℕ) (src tgt : Field) (hd : 0 < dataLen) :
    ∀ i, i < N → c₀ + i ≤ 1000 →
    (step N dataLen)^[i] (animate N dataLen (phaseStart c₀ tIdx src tgt)) =
      phaseState N c₀ tIdx src tgt i := by
  intro i
  induction i with
  | zero =>
    intro _ hc
    rw [Function.iterate_zero_apply]
    show animate N dataLen ⟨none, true, false, 0, tIdx, c₀, .full, false, none, src, tgt⟩ = _
    rw [animate_shape N dataLen none c₀ tIdx 0 .full false none src tgt hd (by omega)]
    rfl
  | succ i ih =>
    intro hi hc
    rw [Function.iterate_succ_apply', ih (by omega) (by omega)]
    unfold step
    have htimer : (phaseState N c₀ tIdx src tgt i).timer = some .advanceSource := by
      unfold phaseState
      rw [if_pos (by omega : i < N - 1)]
    rw [htimer]
    show fireCallback N dataLen .advanceSource
      { (phaseState N c₀ tIdx src tgt i) with timer := none } = _
    unfold fireCallback
    rw [if_neg (by simp [phaseState])]
    show animate N dataLen
      ⟨none, true, false, i + 1, tIdx, c₀ + i + 1, .highlighting, false, some i, src, tgt⟩ = _
    rw [animate_shape N dataLen none (c₀ + i + 1) tIdx (i + 1) .highlighting false (some i)
      src tgt hd (by omega)]
    rfl

theorem targetOptions_length (f : Field) : (targetOptions f).length = 4 := by
  cases f <;> rfl

/-- The shape of `animate` when the cycle counter has exceeded the
safety limit: the indices are reset before highlighting, so index `0`
is highlighted regardless of the current position. -/
theorem animate_reset_shape (N dataLen : ℕ) (tm : Option AnimCallback) (c tIdx i : ℕ)
    (ph : AnimPhase) (fop : Bool) (hov : Option ℕ) (src tgt : Field)
    (hd : 0 < dataLen) (hc : c > 1000) :
    animate N dataLen ⟨tm, true, false, i, tIdx, c, ph, fop, hov, src, tgt⟩ =
      { timer := some (if 0 < N - 1 then .advanceSource
          else if 0 < (targetOptions src).length - 1 then .nextTargetStep
          else .nextSourceStep),
        running := true, isPaused := false, currentSourceIndex := 0,
        currentTargetIndex := 0, cycleCount := 1, phase := .highlighting,
        isInFullOpacityState := false, hoveredSourceIndex := some 0,
        currentSource := src, currentTarget := tgt } := by
  unfold animate
  simp only []
  rw [if_neg (by simp)]
  rw [if_neg (by simp [Nat.pos_iff_ne_zero.mp hd])]
  rw [if_pos hc]
  by_cases h1 : 0 < N - 1
  · rw [if_pos h1, if_pos h1]
  · rw [if_neg h1, if_neg h1]
    by_cases h2 : 0 < (targetOptions src).length - 1
    · rw [if_pos h2, if_pos h2]
    · rw [if_neg h2, if_neg h2]

/-- One target sub-phase with `N ≥ 2` source nodes and a non-final
target index: `N + 1` machine steps take a sub-phase start (index 0
just highlighted) through all remaining highlights, the target-change
callback and the restart, to the start of the next sub-phase, with the
cycle counter advanced by `N` and the source field unchanged (a target
change does not restart the animation effect). -/
theorem subphase_cycle (N dataLen c₀ tIdx : ℕ) (src tgt : Field) (hd : 0 < dataLen)
    (hN : 2 ≤ N) (ht : tIdx < 3) (hc : c₀ + N ≤ 1000) :
    (step N dataLen)^[N + 1] (phaseState N c₀ tIdx src tgt 0) =
      phaseState N (c₀ + N) (tIdx + 1) src ((targetOptions src).getD (tIdx + 1) tgt) 0 := by
  have h0 : animate N dataLen (phaseStart c₀ tIdx src tgt) =
      phaseState N c₀ tIdx src tgt 0 := by
    have := phase_invariant N dataLen c₀ tIdx src tgt hd 0 (by omega) (by omega)
    rwa [Function.iterate_zero_apply] at this
  have hN1 : (step N dataLen)^[N - 1] (phaseState N c₀ tIdx src tgt 0) =
      phaseState N c₀ tIdx src tgt (N - 1) := by
    rw [← h0]
    exact phase_invariant N dataLen c₀ tIdx src tgt hd (N - 1) (by omega) (by omega)
  have hsplit : (step N dataLen)^[N + 1] (phaseState N c₀ tIdx src tgt 0) =
      step N dataLen (step N dataLen
        ((step N dataLen)^[N - 1] (phaseState N c₀ tIdx src tgt 0))) := by
    rw [show N + 1 = (N - 1) + 1 + 1 from by omega, Function.iterate_succ_apply',
      Function.iterate_succ_apply']
  rw [hsplit, hN1]
  have htimer : (phaseState N c₀ tIdx src tgt (N - 1)).timer = some .nextTargetStep := by
    unfold phaseState
    rw [if_neg (by omega), targetOptions_length, if_pos (by omega)]
  have hstepA : step N dataLen (phaseState N c₀ tIdx src tgt (N - 1)) =
      ⟨some .restartStep, true, false, 0, tIdx + 1, c₀ + (N - 1) + 1, .transitioning, false,
        some (N - 1), src, (targetOptions src).getD (tIdx + 1) tgt⟩ := by
    unfold step
    rw [htimer]
    show fireCallback N dataLen .nextTargetStep
      { (phaseState N c₀ tIdx src tgt (N - 1)) with timer := none } = _
    unfold fireCallback
    rw [if_neg (by simp [phaseState])]
    rfl
  have hstepB : step N dataLen
      (⟨some .restartStep, true, false, 0, tIdx + 1, c₀ + (N - 1) + 1, .transitioning, false,
        some (N - 1), src, (targetOptions src).getD (tIdx + 1) tgt⟩ : AnimState) =
      phaseState N (c₀ + N) (tIdx + 1) src ((targetOptions src).getD (tIdx + 1) tgt) 0 := by
    unfold step
    show fireCallback N dataLen .restartStep
      ⟨none, true, false, 0, tIdx + 1, c₀ + (N - 1) + 1, .transitioning, false,
        some (N - 1), src, (targetOptions src).getD (tIdx + 1) tgt⟩ = _
    unfold fireCallback
    dsimp only
    rw [if_pos (show (true && !false) = true from rfl)]
    rw [animate_shape N dataLen none (c₀ + (N - 1) + 1) (tIdx + 1) 0 .transitioning false
      (some (N - 1)) src ((targetOptions src).getD (tIdx + 1) tgt) hd (by omega)]
    unfold phaseState
    rw [show c₀ + (N - 1) + 1 + 1 = c₀ + N + 0 + 1 from by omega]
  rw [hstepA, hstepB]

/-- Three target sub-phases on a source axis with 251 nodes: from a
fresh phase start (indices and cycle counter zeroed by the animation
effect), `252 * t` machine steps reach target index `t ≤ 3` with the
cycle counter at `251 * t` and the source field unchanged. -/
theorem subphase_iteration (dataLen : ℕ) (src tgt : Field) (hd : 0 < dataLen) :
    ∀ t, t ≤ 3 →
      ∃ tgt', (step 251 dataLen)^[252 * t]
          (animate 251 dataLen (phaseStart 0 0 src tgt)) =
        phaseState 251 (251 * t) t src tgt' 0 := by
  intro t
  induction t with
  | zero =>
    intro _
    refine ⟨tgt, ?_⟩
    rw [show (252 : ℕ) * 0 = 0 from rfl, Function.iterate_zero_apply]
    have := phase_invariant 251 dataLen 0 0 src tgt hd 0 (by omega) (by omega)
    rwa [Function.iterate_zero_apply] at this
  | succ t ih =>
    intro ht
    obtain ⟨tgt', hih⟩ := ih (by omega)
    refine ⟨(targetOptions src).getD (t + 1) tgt', ?_⟩
    rw [show (252 : ℕ) * (t + 1) = 252 + 252 * t from by ring,
      Function.iterate_add_apply, hih]
    have hcyc := subphase_cycle 251 dataLen (251 * t) t src tgt' hd (by norm_num)
      (by omega) (by omega)
    rw [show (252 : ℕ) = 251 + 1 from rfl, hcyc,
      show (251 : ℕ) * (t + 1) = 251 * t + 251 from by ring]

/-- Claim C9 (amended). Sequencer monotonicity with pause/resume, as
long as the global cycle counter stays at or below its safety cap of
1000: within a source-cycling phase over `N` nodes starting at cycle
count `c₀`, the `i`-th machine step highlights exactly index `i`
(indices `0, 1, ..., N-1` in order, no repeats or skips), and pausing
at step `k` then resuming re-highlights exactly index `k`, not 0. (The
cap proviso is needed: the animation effect zeroes the counter at each
source-field change, so a full phase over `N` source nodes and 4
targets keeps it at most `4 * N`; for `N ≤ 250` the proviso therefore
holds throughout every phase, but with 251 or more observed source
labels crossing `cycleCount > 1000` resets the index mid-phase — see
the counterexample.) -/
theorem sequencer_monotonicity_amended (N dataLen c₀ tIdx : ℕ) (src tgt : Field)
    (hd : 0 < dataLen) :
    (∀ i, i < N → c₀ + i ≤ 1000 →
      ((step N dataLen)^[i]
          (animate N dataLen (phaseStart c₀ tIdx src tgt))).hoveredSourceIndex = some i) ∧
    (∀ k, k < N → c₀ + k + 1 ≤ 1000 →
      (step N dataLen (resumeAnimation (pauseAnimation
          ((step N dataLen)^[k]
            (animate N dataLen (phaseStart c₀ tIdx src tgt)))))).hoveredSourceIndex
        = some k) := by
  constructor
  · intro i hi hc
    rw [phase_invariant N dataLen c₀ tIdx src tgt hd i hi hc]
    rfl
  · intro k hk hc
    rw [phase_invariant N dataLen c₀ tIdx src tgt hd k hk (by omega)]
    have hpause : pauseAnimation (phaseState N c₀ tIdx src tgt k) =
        ⟨none, true, true, k, tIdx, c₀ + k + 1, .highlighting, false, some k, src, tgt⟩ := by
      unfold pauseAnimation phaseState
      dsimp only
      rw [if_pos (show (true && !false) = true from rfl)]
    have hresume : resumeAnimation
        (⟨none, true, true, k, tIdx, c₀ + k + 1, .highlighting, false, some k, src,
          tgt⟩ : AnimState) =
        ⟨some .resumeStep, true, false, k, tIdx, c₀ + k + 1, .highlighting, false, some k,
          src, tgt⟩ := by
      unfold resumeAnimation
      dsimp only
      rw [if_pos (show (true && true) = true from rfl)]
    rw [hpause, hresume]
    unfold step
    show (fireCallback N dataLen .resumeStep
      ⟨none, true, false, k, tIdx, c₀ + k + 1, .highlighting, false, some k, src,
        tgt⟩).hoveredSourceIndex = some k
    unfold fireCallback
    dsimp only
    rw [if_pos (show (true && !false) = true from rfl)]
    rw [animate_shape N dataLen none (c₀ + k + 1) tIdx k .highlighting false (some k)
      src tgt hd (by omega)]

/-- Witness for C9 (amended): with three source nodes, the third step
highlights index 2, and pausing at step 1 then resuming re-highlights
index 1. -/
theorem sequencer_monotonicity_amended_witness :
    ((step 3 1)^[2]
        (animate 3 1 (phaseStart 0 0 .years_at_medtronic
          .learning_style))).hoveredSourceIndex = some 2 ∧
    (step 3 1 (resumeAnimation (pauseAnimation
        ((step 3 1)^[1] (animate 3 1 (phaseStart 0 0 .years_at_medtronic
          .learning_style)))))).hoveredSourceIndex = some 1 :=
  ⟨(sequencer_monotonicity_amended 3 1 0 0 .years_at_medtronic .learning_style
      (by norm_num)).1 2 (by norm_num) (by norm_num),
   (sequencer_monotonicity_amended 3 1 0 0 .years_at_medtronic .learning_style
      (by norm_num)).2 1 (by norm_num) (by norm_num)⟩

/-- 251 pairwise-distinct two-letter labels in ascending code-unit
order: `"aa", "ab", ..., "az", "ba", ...`. -/
def labelOf (i : ℕ) : String :=
  String.mk [Char.ofNat (97 + i / 26), Char.ofNat (97 + i % 26)]

/-- 251 eligible records with pairwise-distinct `learning_style`
answers: a record set on which the `learning_style` source axis has 251
nodes. -/
def manyRecords : List SurveyResponse :=
  (List.range 251).map (fun i => ⟨some 1, some (labelOf i), none, none, none, false⟩)

theorem length_sortAlpha (l : List String) : (sortAlpha l).length = l.length :=
  (List.perm_insertionSort jsLe l).length_eq

theorem firstDedup_eq_self {α : Type} [DecidableEq α] :
    ∀ l : List α, l.Nodup → firstDedup l = l := by
  intro l
  induction l with
  | nil => intro h; rfl
  | cons x xs ih =>
    intro h
    rw [List.nodup_cons] at h
    show x :: (firstDedup xs).filter (fun y => y ≠ x) = x :: xs
    rw [ih h.2, List.filter_eq_self.mpr]
    intro a ha
    exact decide_eq_true (fun hax => h.1 (hax ▸ ha))

theorem charOfNat_toNat : ∀ n, n < 128 → (Char.ofNat n).toNat = n := by decide

theorem labelOf_injOn : ∀ i, i < 251 → ∀ j, j < 251 → labelOf i = labelOf j → i = j := by
  intro i hi j hj h
  have hdata := congrArg String.data h
  simp only [labelOf, List.cons.injEq, and_true] at hdata
  have h1 : (Char.ofNat (97 + i / 26)).toNat = (Char.ofNat (97 + j / 26)).toNat := by
    rw [hdata.1]
  have h2 : (Char.ofNat (97 + i % 26)).toNat = (Char.ofNat (97 + j % 26)).toNat := by
    rw [hdata.2]
  rw [charOfNat_toNat _ (by omega), charOfNat_toNat _ (by omega)] at h1
  rw [charOfNat_toNat _ (by omega), charOfNat_toNat _ (by omega)] at h2
  omega

theorem manyRecords_styles :
    manyRecords.map (fun d => catField d .learning_style) =
      (List.range 251).map (fun i => some (labelOf i)) := by
  unfold manyRecords
  rw [List.map_map]
  rfl

theorem nodup_styles :
    ((List.range 251).map (fun i => some (labelOf i))).Nodup := by
  refine List.Nodup.map_on ?_ (List.nodup_range 251)
  intro i hi j hj h
  rw [List.mem_range] at hi hj
  exact labelOf_injOn i hi j hj (Option.some.inj h)

theorem keepValid_styles :
    keepValidStrings ((List.range 251).map (fun i => some (labelOf i))) =
      (List.range 251).map labelOf := by
  unfold keepValidStrings
  rw [List.filterMap_map]
  show List.filterMap (some ∘ labelOf) (List.range 251) = _
  rw [List.filterMap_eq_map]

theorem filteredData_true (data : List SurveyResponse) : filteredData data true = data := by
  unfold filteredData
  exact if_pos rfl

theorem manyRecords_len : manyRecords.length = 251 := by
  unfold manyRecords
  rw [List.length_map, List.length_range]

theorem manyRecords_isEmpty : manyRecords.isEmpty = false := by
  have h := manyRecords_len
  cases hE : manyRecords with
  | nil => rw [hE] at h; exact absurd h (by decide)
  | cons a l => rfl

/-- On the 251-record set the `learning_style` source axis really has
251 nodes: the machine parameter `N = 251` below is the actual
`sortedSources.length` of this data. -/
theorem manySources_length :
    (sortedSources (filteredData manyRecords true) .learning_style).length = 251 := by
  rw [filteredData_true]
  unfold sortedSources
  rw [if_neg (by decide)]
  rw [length_sortAlpha]
  unfold sources
  rw [manyRecords_isEmpty]
  rw [if_neg (by decide)]
  rw [if_neg (by decide)]
  rw [manyRecords_styles, firstDedup_eq_self _ nodup_styles, keepValid_styles,
    List.length_map, List.length_range]

theorem manyRecords_length : (filteredData manyRecords true).length = 251 := by
  rw [filteredData_true]
  exact manyRecords_len

/-- Counterexample to C9 as stated: on the 251-record set above the
`learning_style` source axis has `N = 251` nodes, so a single
source-cycling phase makes more than 1001 `animate` calls before the
source field (and with it the cycle counter, which the animation effect
zeroes only on source changes) can change. Within the phase's fourth
target sub-phase, machine step 1003 highlights index 247 with the cycle
counter at its cap, and the very next step highlights index 0 — instead
of index 248 — in the same field pair, because `animate` resets the
indices once `cycleCount` exceeds 1000. The highlight sequence within
that sub-phase is therefore `0, 1, ..., 247, 0, ...`: a repeat of 0 and
a skip of 248-250, violating strict monotonicity. -/
theorem sequencer_monotonicity_counterexample :
    (sortedSources (filteredData manyRecords true) .learning_style).length = 251 ∧
    (filteredData manyRecords true).length = 251 ∧
    ((step 251 251)^[1003]
        (animate 251 251 (phaseStart 0 0 .learning_style
          .years_at_medtronic))).hoveredSourceIndex = some 247 ∧
    ((step 251 251)^[1004]
        (animate 251 251 (phaseStart 0 0 .learning_style
          .years_at_medtronic))).hoveredSourceIndex = some 0 ∧
    ((step 251 251)^[1004]
        (animate 251 251 (phaseStart 0 0 .learning_style
          .years_at_medtronic))).currentSource =
      ((step 251 251)^[1003]
        (animate 251 251 (phaseStart 0 0 .learning_style
          .years_at_medtronic))).currentSource ∧
    ((step 251 251)^[1004]
        (animate 251 251 (phaseStart 0 0 .learning_style
          .years_at_medtronic))).currentTarget =
      ((step 251 251)^[1003]
        (animate 251 251 (phaseStart 0 0 .learning_style
          .years_at_medtronic))).currentTarget ∧
    (some 0 : Option ℕ) ≠ some 248 := by
  obtain ⟨tgt', h756⟩ := subphase_iteration 251 .learning_style .years_at_medtronic
    (by norm_num) 3 (by norm_num)
  rw [show (252 : ℕ) * 3 = 756 from by norm_num] at h756
  have h1003 : (step 251 251)^[1003]
      (animate 251 251 (phaseStart 0 0 .learning_style .years_at_medtronic)) =
      phaseState 251 753 3 .learning_style tgt' 247 := by
    rw [show (1003 : ℕ) = 247 + 756 from by norm_num, Function.iterate_add_apply, h756,
      show (251 : ℕ) * 3 = 753 from by norm_num]
    have h0 : animate 251 251 (phaseStart 753 3 .learning_style tgt') =
        phaseState 251 753 3 .learning_style tgt' 0 := by
      have := phase_invariant 251 251 753 3 .learning_style tgt' (by norm_num) 0
        (by norm_num) (by norm_num)
      rwa [Function.iterate_zero_apply] at this
    rw [← h0]
    exact phase_invariant 251 251 753 3 .learning_style tgt' (by norm_num) 247
      (by norm_num) (by norm_num)
  have h1004 : (step 251 251)^[1004]
      (animate 251 251 (phaseStart 0 0 .learning_style .years_at_medtronic)) =
      { timer := some (if 0 < 251 - 1 then .advanceSource
          else if 0 < (targetOptions Field.learning_style).length - 1 then .nextTargetStep
          else .nextSourceStep),
        running := true, isPaused := false, currentSourceIndex := 0,
        currentTargetIndex := 0, cycleCount := 1, phase := .highlighting,
        isInFullOpacityState := false, hoveredSourceIndex := some 0,
        currentSource := .learning_style, currentTarget := tgt' } := by
    rw [show (1004 : ℕ) = 1003 + 1 from rfl, Function.iterate_succ_apply', h1003]
    unfold step
    have htimer : (phaseState 251 753 3 .learning_style tgt' 247).timer =
        some .advanceSource := by
      unfold phaseState
      rw [if_pos (by norm_num)]
    rw [htimer]
    show fireCallback 251 251 .advanceSource
      { (phaseState 251 753 3 .learning_style tgt' 247) with timer := none } = _
    unfold fireCallback
    rw [if_neg (by simp [phaseState])]
    show animate 251 251
      ⟨none, true, false, 248, 3, 1001, .highlighting, false, some 247,
        .learning_style, tgt'⟩ = _
    exact animate_reset_shape 251 251 none 1001 3 248 .highlighting false (some 247)
      .learning_style tgt' (by norm_num) (by norm_num)
  refine ⟨manySources_length, manyRecords_length, ?_, ?_, ?_, ?_, by simp⟩
  · rw [h1003]
    rfl
  · rw [h1004]
  · rw [h1004, h1003]
    rfl
  · rw [h1004, h1003]
    rfl

end MedVis
